import Mathlib

/-!
Verification development for the Maps_AI route-planning repository.

We give a shallow embedding of the algorithmic core of the repository
(`fallback_agent.py`, `scenic_agent.py`, `fitness_agent.py`,
`nvidia_agent.py`) and prove the spec's testable properties about it.

Numbers: Python floats are modelled as rationals (`ℚ`), Python ints as
`Int`/`Nat`.  External network providers (geocoding, directions,
places-nearby, elevation, the NVIDIA planning model) are modelled as
explicit oracle functions passed to the embedded operations; a provider
call that the Python code lets raise an exception is modelled with
`Option` (`none` = the request aborts with an error, no list returned).
-/

/-- A waypoint dictionary `{"name": ..., "lat": ..., "lng": ...}` as built
by every agent in the repository. -/
structure Waypoint where
  name : String
  lat : ℚ
  lng : ℚ
  deriving DecidableEq, Repr

/-- `fallback_agent.py` line 65-66: the dedup identity
`f"{pt.get('name')}|{pt.get('lat')}|{pt.get('lng')}"` — literal string
concatenation of the name and the printed coordinates. -/
def wkey (p : Waypoint) : String :=
  p.name ++ "|" ++ toString p.lat ++ "|" ++ toString p.lng

/-- `fallback_agent.py` lines 72-83: the body of the two merge loops.
Walks `pts`, appending to `acc` each point whose key is not in `seen`
and recording its key, exactly as the Python
`if k not in seen: merged.append(pt); seen.add(k)`. -/
def addNew : List Waypoint → List String → List Waypoint →
    (List Waypoint × List String)
  | [], seen, acc => (acc, seen)
  | pt :: rest, seen, acc =>
    if wkey pt ∈ seen then addNew rest seen acc
    else addNew rest (wkey pt :: seen) (acc ++ [pt])

/-- `fallback_agent.py` lines 62-87 (`get_waypoints`, step 5): merge the
model-proposed list `gpt` with the fixed required list `fixed` —
(a) `gpt[0]` if `gpt` is non-empty, (b) `fixed[1:]` deduplicated,
(c) `gpt[1:]` deduplicated, (d) if the merge is empty, `fixed` verbatim. -/
def mergeWaypoints (gpt fixed : List Waypoint) : List Waypoint :=
  let s1 : List Waypoint × List String :=
    match gpt with
    | [] => ([], [])
    | g0 :: _ => ([g0], [wkey g0])
  let s2 := addNew fixed.tail s1.2 s1.1
  let s3 := addNew gpt.tail s2.2 s2.1
  if s3.1 = [] then fixed else s3.1

/-- Spec-level first-occurrence selection ("every entry whose identity key
has not already been output, in order"): keeps each element of the list
whose key is neither in `seen` nor on an earlier kept element. -/
def selectNew : List String → List Waypoint → List Waypoint
  | _, [] => []
  | seen, x :: xs =>
    if wkey x ∈ seen then selectNew seen xs
    else x :: selectNew (wkey x :: seen) xs

-- ------------------------------------------------------------------
-- Lemmas about addNew / selectNew
-- ------------------------------------------------------------------

theorem addNew_fst (pts : List Waypoint) (seen : List String)
    (acc : List Waypoint) :
    (addNew pts seen acc).1 = acc ++ selectNew seen pts := by
  induction pts generalizing seen acc with
  | nil => simp [addNew, selectNew]
  | cons pt rest ih =>
    by_cases h : wkey pt ∈ seen
    · simp [addNew, selectNew, h, ih]
    · simp [addNew, selectNew, h, ih]

theorem addNew_snd_mem (pts : List Waypoint) (seen : List String)
    (acc : List Waypoint) (k : String) :
    k ∈ (addNew pts seen acc).2 ↔
      k ∈ seen ∨ k ∈ (selectNew seen pts).map wkey := by
  induction pts generalizing seen acc with
  | nil => simp [addNew, selectNew]
  | cons pt rest ih =>
    by_cases h : wkey pt ∈ seen
    · rw [addNew, if_pos h, selectNew, if_pos h, ih]
    · rw [addNew, if_neg h, selectNew, if_neg h, ih]
      simp only [List.map_cons, List.mem_cons, List.mem_map]
      tauto

/-- If two seen-lists agree on membership, `selectNew` does not
distinguish them. -/
theorem selectNew_congr (s₁ s₂ : List String) (l : List Waypoint)
    (h : ∀ k, k ∈ s₁ ↔ k ∈ s₂) : selectNew s₁ l = selectNew s₂ l := by
  induction l generalizing s₁ s₂ with
  | nil => rfl
  | cons x xs ih =>
    by_cases hx : wkey x ∈ s₁
    · rw [selectNew, if_pos hx, selectNew, if_pos ((h _).mp hx), ih _ _ h]
    · rw [selectNew, if_neg hx, selectNew, if_neg (fun c => hx ((h _).mpr c))]
      refine congrArg _ (ih _ _ ?_)
      intro k
      simp only [List.mem_cons]
      exact or_congr Iff.rfl (h k)

theorem selectNew_skip_of_mem (seen : List String) (l : List Waypoint)
    (h : ∀ x ∈ l, wkey x ∈ seen) : selectNew seen l = [] := by
  induction l with
  | nil => rfl
  | cons x xs ih =>
    rw [selectNew, if_pos (h x (List.mem_cons_self x xs))]
    exact ih fun y hy => h y (List.mem_cons_of_mem x hy)

theorem selectNew_append (seen : List String) (a b : List Waypoint) :
    selectNew seen (a ++ b) =
      selectNew seen a ++
        selectNew ((selectNew seen a).map wkey ++ seen) b := by
  induction a generalizing seen with
  | nil =>
    simp only [List.nil_append, selectNew, List.map_nil]
  | cons x xs ih =>
    by_cases h : wkey x ∈ seen
    · rw [List.cons_append, selectNew, if_pos h, selectNew, if_pos h, ih]
    · rw [List.cons_append, selectNew, if_neg h, selectNew, if_neg h,
        List.cons_append, ih]
      refine congrArg _ (congrArg _ (selectNew_congr _ _ _ fun k => ?_))
      simp only [List.map_cons, List.mem_append, List.mem_cons]
      tauto

theorem selectNew_key_not_mem_seen (seen : List String) (l : List Waypoint) :
    ∀ x ∈ selectNew seen l, wkey x ∉ seen := by
  induction l generalizing seen with
  | nil => intro x hx; cases hx
  | cons y ys ih =>
    intro x hx
    by_cases h : wkey y ∈ seen
    · rw [selectNew, if_pos h] at hx
      exact ih seen x hx
    · rw [selectNew, if_neg h] at hx
      rcases List.mem_cons.mp hx with rfl | hx'
      · exact h
      · intro hmem
        exact ih _ x hx' (List.mem_cons_of_mem _ hmem)

theorem selectNew_map_key_nodup (seen : List String) (l : List Waypoint) :
    ((selectNew seen l).map wkey).Nodup := by
  induction l generalizing seen with
  | nil => simp [selectNew]
  | cons y ys ih =>
    by_cases h : wkey y ∈ seen
    · rw [selectNew, if_pos h]; exact ih seen
    · rw [selectNew, if_neg h, List.map_cons, List.nodup_cons]
      refine ⟨?_, ih _⟩
      intro hmem
      rcases List.mem_map.mp hmem with ⟨z, hz, hkz⟩
      exact selectNew_key_not_mem_seen _ _ z hz
        (hkz ▸ List.mem_cons_self _ _)

/-- A list whose keys avoid `seen` and are mutually distinct passes
through `selectNew` unchanged. -/
theorem selectNew_id_of_fresh (seen : List String) (l : List Waypoint)
    (hfresh : ∀ x ∈ l, wkey x ∉ seen) (hnd : (l.map wkey).Nodup) :
    selectNew seen l = l := by
  induction l generalizing seen with
  | nil => rfl
  | cons x xs ih =>
    rw [List.map_cons, List.nodup_cons] at hnd
    rw [selectNew, if_neg (hfresh x (List.mem_cons_self x xs))]
    refine congrArg _ (ih _ ?_ hnd.2)
    intro y hy
    simp only [List.mem_cons]
    rintro (hk | hk)
    · exact hnd.1 (hk ▸ List.mem_map_of_mem wkey hy)
    · exact hfresh y (List.mem_cons_of_mem x hy) hk

theorem selectNew_idem (seen : List String) (l : List Waypoint) :
    selectNew seen (selectNew seen l) = selectNew seen l :=
  selectNew_id_of_fresh seen _ (selectNew_key_not_mem_seen seen l)
    (selectNew_map_key_nodup seen l)

/-- Spec-level restatement of the merge (amended §4.5/§8 wording): with a
non-empty primary list the output is `primary[0]`, then the new-keyed
entries of `required[1:]`, then the new-keyed entries of `primary[1:]`;
with an empty primary list the output is the new-keyed entries of
`required[1:]`, or `required` verbatim when `required[1:]` is empty. -/
def mergeSpec (gpt fixed : List Waypoint) : List Waypoint :=
  match gpt with
  | [] => if fixed.tail = [] then fixed else selectNew [] fixed.tail
  | g0 :: gt =>
    let d := selectNew [wkey g0] fixed.tail
    g0 :: (d ++ selectNew (d.map wkey ++ [wkey g0]) gt)

theorem selectNew_nil_eq_nil_iff (l : List Waypoint) :
    selectNew [] l = [] ↔ l = [] := by
  cases l with
  | nil => simp [selectNew]
  | cons x xs =>
    rw [selectNew, if_neg (List.not_mem_nil (wkey x))]
    simp

theorem mergeWaypoints_eq_mergeSpec (gpt fixed : List Waypoint) :
    mergeWaypoints gpt fixed = mergeSpec gpt fixed := by
  cases gpt with
  | nil =>
    rw [mergeWaypoints, mergeSpec]
    simp only [List.tail_nil, addNew]
    rw [addNew_fst]
    simp only [List.nil_append]
    by_cases h : fixed.tail = []
    · rw [if_pos ((selectNew_nil_eq_nil_iff _).mpr h), if_pos h]
    · rw [if_neg (fun c => h ((selectNew_nil_eq_nil_iff _).mp c)), if_neg h]
  | cons g0 gt =>
    rw [mergeWaypoints, mergeSpec]
    simp only [List.tail_cons]
    rw [addNew_fst, addNew_fst]
    have hcongr :
        selectNew (addNew fixed.tail [wkey g0] [g0]).2 gt =
          selectNew ((selectNew [wkey g0] fixed.tail).map wkey ++ [wkey g0])
            gt := by
      refine selectNew_congr _ _ _ fun k => ?_
      rw [addNew_snd_mem]
      simp only [List.mem_append, List.mem_singleton]
      tauto
    rw [hcongr]
    simp only [List.cons_append, List.append_assoc, List.nil_append]
    rw [if_neg (by simp)]

/-- The keys of the merge output are mutually distinct.  (The fallback
branch returns `fixed` verbatim, but it fires only when `fixed` has at
most one element, which is trivially duplicate-free.) -/
theorem mergeWaypoints_keys_nodup (gpt fixed : List Waypoint) :
    ((mergeWaypoints gpt fixed).map wkey).Nodup := by
  rw [mergeWaypoints_eq_mergeSpec]
  cases gpt with
  | nil =>
    rw [mergeSpec]
    by_cases h : fixed.tail = []
    · rw [if_pos h]
      cases fixed with
      | nil => simp
      | cons f0 fs =>
        rw [List.tail_cons] at h
        subst h
        simp
    · rw [if_neg h]
      exact selectNew_map_key_nodup [] fixed.tail
  | cons g0 gt =>
    rw [mergeSpec]
    simp only [List.map_cons, List.map_append, List.nodup_cons,
      List.mem_append]
    refine ⟨?_, ?_⟩
    · rintro (hd | hq)
      · rcases List.mem_map.mp hd with ⟨x, hx, hkx⟩
        exact selectNew_key_not_mem_seen _ _ x hx
          (hkx ▸ List.mem_singleton_self _)
      · rcases List.mem_map.mp hq with ⟨x, hx, hkx⟩
        exact selectNew_key_not_mem_seen _ _ x hx
          (List.mem_append_right _ (hkx ▸ List.mem_singleton_self _))
    · rw [List.nodup_append]
      refine ⟨selectNew_map_key_nodup _ _, selectNew_map_key_nodup _ _, ?_⟩
      intro k hkd hkq
      rcases List.mem_map.mp hkq with ⟨x, hx, hkx⟩
      exact selectNew_key_not_mem_seen _ _ x hx
        (List.mem_append_left _ (hkx ▸ hkd))

/-- C7: the merger never produces duplicate identities — deduplicating
the output by identity key leaves it unchanged, so
`len(output) = len(dedup_by_identity(output))` for all inputs. -/
theorem mergeWaypoints_no_duplicate_identities (gpt fixed : List Waypoint) :
    selectNew [] (mergeWaypoints gpt fixed) = mergeWaypoints gpt fixed ∧
    (mergeWaypoints gpt fixed).length =
      (selectNew [] (mergeWaypoints gpt fixed)).length := by
  have hid : selectNew [] (mergeWaypoints gpt fixed) =
      mergeWaypoints gpt fixed :=
    selectNew_id_of_fresh _ _ (fun x _ hx => (List.not_mem_nil _) hx)
      (mergeWaypoints_keys_nodup gpt fixed)
  exact ⟨hid, by rw [hid]⟩

/-- C8: re-running the merger on its own output with the same required
list is a fixed point: `merge(merge(primary, required), required) =
merge(primary, required)`. -/
theorem mergeWaypoints_idempotent (gpt fixed : List Waypoint) :
    mergeWaypoints (mergeWaypoints gpt fixed) fixed =
      mergeWaypoints gpt fixed := by
  rw [mergeWaypoints_eq_mergeSpec gpt fixed,
    mergeWaypoints_eq_mergeSpec (mergeSpec gpt fixed) fixed]
  cases gpt with
  | cons g0 gt =>
    show mergeSpec
        (g0 :: (selectNew [wkey g0] fixed.tail ++
          selectNew ((selectNew [wkey g0] fixed.tail).map wkey ++ [wkey g0])
            gt)) fixed = _
    rw [mergeSpec, mergeSpec]
    refine congrArg _ (congrArg _ ?_)
    rw [selectNew_append]
    rw [selectNew_skip_of_mem _ _
      (fun x hx => List.mem_append_left _ (List.mem_map_of_mem wkey hx))]
    simp only [List.map_nil, List.nil_append]
    rw [selectNew_idem]
  | nil =>
    cases fixed with
    | nil => rfl
    | cons r0 rt =>
      cases rt with
      | nil => rfl
      | cons r1 rt' =>
        show mergeSpec (selectNew [] (r1 :: rt')) (r0 :: r1 :: rt') = _
        rw [mergeSpec]
        simp only [List.tail_cons, if_neg (by simp : ¬(r1 :: rt' = []))]
        rw [selectNew, if_neg (List.not_mem_nil (wkey r1))]
        rw [mergeSpec]
        simp only [List.tail_cons]
        rw [selectNew, if_pos (List.mem_singleton_self (wkey r1))]
        refine congrArg _ ?_
        rw [selectNew_skip_of_mem _ _
          (fun x hx => List.mem_append_left _ (List.mem_map_of_mem wkey hx))]
        simp

/-- Counterexample to C6 as stated: with an empty primary list the
merger does NOT return the required list verbatim — the fallback branch
fires only when `required[1:]` is empty, so `merge([], [A, D]) = [D]`. -/
theorem mergeWaypoints_empty_primary_counterexample :
    mergeWaypoints [] [⟨"A", 1, 1⟩, ⟨"D", 4, 4⟩] =
      [(⟨"D", 4, 4⟩ : Waypoint)] ∧
    mergeWaypoints [] [⟨"A", 1, 1⟩, ⟨"D", 4, 4⟩] ≠
      [⟨"A", 1, 1⟩, ⟨"D", 4, 4⟩] := by
  refine ⟨rfl, ?_⟩
  intro h
  exact absurd (congrArg List.length h) (by decide)

/-- C6 (amended): the merge output is primary[0], then the new-keyed
entries of required[1:], then the new-keyed entries of primary[1:]; when
primary is empty the output is the new-keyed entries of required[1:],
except that it is required verbatim when required[1:] is empty.  In
particular `merge([A,B,C],[A,D]) = [A,D,B,C]`. -/
theorem mergeWaypoints_characterization :
    (∀ gpt fixed : List Waypoint,
      mergeWaypoints gpt fixed = mergeSpec gpt fixed) ∧
    mergeWaypoints [⟨"A", 1, 1⟩, ⟨"B", 2, 2⟩, ⟨"C", 3, 3⟩]
        [⟨"A", 1, 1⟩, ⟨"D", 4, 4⟩] =
      [⟨"A", 1, 1⟩, ⟨"D", 4, 4⟩, ⟨"B", 2, 2⟩, ⟨"C", 3, 3⟩] := by
  refine ⟨mergeWaypoints_eq_mergeSpec, ?_⟩
  rfl

-- ------------------------------------------------------------------
-- Scenic agent (`scenic_agent.py`)
-- ------------------------------------------------------------------

/-- One entry of a places-nearby `results` list: the provider's unique
place identifier, display name, and `geometry.location`. -/
structure Place where
  place_id : String
  name : String
  lat : ℚ
  lng : ℚ
  deriving DecidableEq, Repr

/-- The external providers consumed by `ScenicAgent`, modelled as pure
oracles of the query arguments.  `directions` returns the list of
alternative routes already polyline-decoded (`polyline.decode` is an
opaque external library per spec §1/§6); `parkCount` is the length of
the `results` list of `places_nearby(radius=500, type="park")`;
`scenicPlaces` is the `results` list of
`places_nearby(radius=500, keyword="park|viewpoint")`; `elevations` is
`elevation_along_path(path, samples)` projected to the elevation
values. -/
structure ScenicOracle where
  geocode : String → Option (ℚ × ℚ)
  directions : (ℚ × ℚ) → (ℚ × ℚ) → String → Bool → List (List (ℚ × ℚ))
  parkCount : (ℚ × ℚ) → Nat
  scenicPlaces : (ℚ × ℚ) → List Place
  elevations : List (ℚ × ℚ) → Nat → List ℚ

/-- Helper for the Python slice `coords[::n]`: `k` counts how many
elements remain to be skipped before the next one is taken; a taken
element resets the countdown to `n - 1`. -/
def everyNthAux (n : Nat) : List α → Nat → List α
  | [], _ => []
  | x :: xs, 0 => x :: everyNthAux n xs (n - 1)
  | _ :: xs, k + 1 => everyNthAux n xs k

/-- The Python slice `coords[::n]` (for `n ≥ 1`): the first element, then
every `n`-th element after it. -/
def everyNth (l : List α) (n : Nat) : List α := everyNthAux n l 0

/-- `scenic_agent.py` lines 114/128: both the POI-density scorer and the
waypoint extractor sample `coords[::interval]` with
`interval = max(1, len(coords) // 10)`. -/
def sampledCoords (coords : List (ℚ × ℚ)) : List (ℚ × ℚ) :=
  everyNth coords (max 1 (coords.length / 10))

/-- `scenic_agent.py` lines 113-119 (`_poi_density_score`): sum the
places-nearby result counts over the sampled coordinates and normalise
by `max(1, len(coords) / 1000)`. -/
def poiDensityScore (o : ScenicOracle) (coords : List (ℚ × ℚ)) : ℚ :=
  let total : ℕ := ((sampledCoords coords).map o.parkCount).sum
  (total : ℚ) / max 1 ((coords.length : ℚ) / 1000)

/-- Sum of absolute differences of consecutive values, as in
`sum(abs(vals[i] - vals[i-1]) for i in range(1, len(vals)))`. -/
def totalVariation : List ℚ → ℚ
  | a :: b :: rest => |a - b| + totalVariation (b :: rest)
  | _ => 0

/-- `scenic_agent.py` lines 121-125 (`_elevation_variation_score`):
request `min(len(coords), 10)` elevation samples along the path and sum
the absolute consecutive differences. -/
def elevationVariationScore (o : ScenicOracle) (coords : List (ℚ × ℚ)) : ℚ :=
  totalVariation (o.elevations coords (min coords.length 10))

/-- `scenic_agent.py` line 109: `score = poi + 0.5 * elev`. -/
def compositeScore (o : ScenicOracle) (coords : List (ℚ × ℚ)) : ℚ :=
  poiDensityScore o coords + (1 / 2) * elevationVariationScore o coords

/-- Python's `max(scored, key=lambda x: x[0])`: fold keeping the current
element unless the next one is strictly greater, so the first maximal
element wins; `None` on an empty list (Python raises `ValueError`). -/
def maxByFst : List (ℚ × β) → Option (ℚ × β)
  | [] => none
  | x :: rest =>
    some (rest.foldl (fun best y => if best.1 < y.1 then y else best) x)

/-- `scenic_agent.py` lines 90-111 (`_best_scenic_segment`): score every
alternative returned by the routing provider and return the decoded
path of the best one; `none` when the provider returns no alternatives
(`max` of an empty sequence raises). -/
def bestScenicSegment (o : ScenicOracle) (start stop : ℚ × ℚ)
    (mode : String) (optimize : Bool) : Option (List (ℚ × ℚ)) :=
  let routes := o.directions start stop mode optimize
  let scored := routes.map fun pts => (compositeScore o pts, pts)
  (maxByFst scored).map (·.2)

theorem maxByFst_first_max (x : ℚ × β) (rest : List (ℚ × β)) :
    ∃ l₁ l₂,
      x :: rest =
        l₁ ++ (rest.foldl (fun best y => if best.1 < y.1 then y else best) x)
          :: l₂ ∧
      (∀ y ∈ l₁,
        y.1 < (rest.foldl (fun best y => if best.1 < y.1 then y else best)
          x).1) ∧
      (∀ y ∈ x :: rest,
        y.1 ≤ (rest.foldl (fun best y => if best.1 < y.1 then y else best)
          x).1) := by
  induction rest generalizing x with
  | nil =>
    refine ⟨[], [], rfl, fun y hy => absurd hy (List.not_mem_nil y), ?_⟩
    intro y hy
    rw [List.mem_singleton.mp hy]
    exact le_refl _
  | cons z rest ih =>
    rcases ih (if x.1 < z.1 then z else x) with ⟨m₁, m₂, hdecomp, hstrict, hle⟩
    by_cases hxz : x.1 < z.1
    · rw [if_pos hxz] at hdecomp hstrict hle
      refine ⟨x :: m₁, m₂, ?_, ?_, ?_⟩
      · rw [List.foldl_cons, if_pos hxz, List.cons_append, ← hdecomp]
      · intro y hy
        rw [List.foldl_cons, if_pos hxz]
        rcases List.mem_cons.mp hy with rfl | hy'
        · exact lt_of_lt_of_le hxz (hle z (List.mem_cons_self z rest))
        · exact hstrict y hy'
      · intro y hy
        rw [List.foldl_cons, if_pos hxz]
        rcases List.mem_cons.mp hy with rfl | hy'
        · exact le_of_lt (lt_of_lt_of_le hxz (hle z (List.mem_cons_self _ _)))
        · exact hle y hy'
    · rw [if_neg hxz] at hdecomp hstrict hle
      cases m₁ with
      | nil =>
        rw [List.nil_append] at hdecomp
        injection hdecomp with h1 h2
        refine ⟨[], z :: rest, ?_, fun y hy => absurd hy (List.not_mem_nil y),
          ?_⟩
        · rw [List.foldl_cons, if_neg hxz, List.nil_append, ← h1]
        · intro y hy
          rw [List.foldl_cons, if_neg hxz]
          rcases List.mem_cons.mp hy with rfl | hy'
          · exact hle y (List.mem_cons_self _ _)
          · rcases List.mem_cons.mp hy' with rfl | hy''
            · exact le_trans (le_of_not_lt hxz) (hle x (List.mem_cons_self _ _))
            · exact hle y (List.mem_cons_of_mem _ hy'')
      | cons a m₁' =>
        rw [List.cons_append, List.cons.injEq] at hdecomp
        have hax := hstrict a (List.mem_cons_self a m₁')
        rw [← hdecomp.1] at hax
        refine ⟨x :: z :: m₁', m₂, ?_, ?_, ?_⟩
        · rw [List.foldl_cons, if_neg hxz, List.cons_append, List.cons_append,
            ← hdecomp.2]
        · intro y hy
          rw [List.foldl_cons, if_neg hxz]
          rcases List.mem_cons.mp hy with rfl | hy'
          · exact hax
          · rcases List.mem_cons.mp hy' with rfl | hy''
            · exact lt_of_le_of_lt (le_of_not_lt hxz) hax
            · exact hstrict y (List.mem_cons_of_mem a hy'')
        · intro y hy
          rw [List.foldl_cons, if_neg hxz]
          rcases List.mem_cons.mp hy with rfl | hy'
          · exact hle y (List.mem_cons_self _ _)
          · rcases List.mem_cons.mp hy' with rfl | hy''
            · exact le_trans (le_of_not_lt hxz) (hle x (List.mem_cons_self _ _))
            · exact hle y (List.mem_cons_of_mem _ hy'')

/-- C2: on a non-empty list of alternatives the selector returns the
decoded path of the alternative with the maximal composite score, and
every alternative strictly before it in the provider's order scores
strictly lower (first-encountered wins on ties). -/
theorem bestScenicSegment_first_max (o : ScenicOracle) (a b : ℚ × ℚ)
    (mode : String) (opt : Bool)
    (h : o.directions a b mode opt ≠ []) :
    ∃ pre best post,
      o.directions a b mode opt = pre ++ best :: post ∧
      bestScenicSegment o a b mode opt = some best ∧
      (∀ p ∈ o.directions a b mode opt,
        compositeScore o p ≤ compositeScore o best) ∧
      (∀ p ∈ pre, compositeScore o p < compositeScore o best) := by
  rcases hroutes : o.directions a b mode opt with _ | ⟨r0, rs⟩
  · exact absurd hroutes h
  · have hbest : bestScenicSegment o a b mode opt =
        (maxByFst ((r0 :: rs).map fun pts =>
          (compositeScore o pts, pts))).map (·.2) := by
      rw [bestScenicSegment, hroutes]
    rcases maxByFst_first_max (compositeScore o r0, r0)
        (rs.map fun pts => (compositeScore o pts, pts)) with
      ⟨l₁, l₂, hdec, hstrict, hle⟩
    set res := (rs.map fun pts => (compositeScore o pts, pts)).foldl
      (fun best y => if best.1 < y.1 then y else best)
      (compositeScore o r0, r0) with hres
    have hscored : (compositeScore o r0, r0) ::
        (rs.map fun pts => (compositeScore o pts, pts)) =
        (r0 :: rs).map fun pts => (compositeScore o pts, pts) := by
      rw [List.map_cons]
    have hmem_fst : ∀ y : ℚ × List (ℚ × ℚ),
        y ∈ (r0 :: rs).map (fun pts => (compositeScore o pts, pts)) →
        y.1 = compositeScore o y.2 := by
      intro y hy
      rcases List.mem_map.mp hy with ⟨q, _, hq⟩
      rw [← hq]
    have hres1 : res.1 = compositeScore o res.2 := by
      refine hmem_fst res ?_
      rw [← hscored, hdec]
      exact List.mem_append_right _ (List.mem_cons_self _ _)
    have hmapsnd : r0 :: rs =
        l₁.map Prod.snd ++ res.2 :: l₂.map Prod.snd := by
      have hsnd := congrArg (List.map Prod.snd) (hscored ▸ hdec)
      rw [List.map_map, List.map_append, List.map_cons,
        show (Prod.snd ∘ fun pts : List (ℚ × ℚ) =>
          (compositeScore o pts, pts)) = id from rfl, List.map_id] at hsnd
      exact hsnd
    refine ⟨l₁.map Prod.snd, res.2, l₂.map Prod.snd, hmapsnd, ?_, ?_, ?_⟩
    · rw [hbest, List.map_cons, maxByFst, ← hres]
      rfl
    · intro p hp
      have hmem : (compositeScore o p, p) ∈ (r0 :: rs).map fun pts =>
          (compositeScore o pts, pts) := List.mem_map_of_mem _ hp
      rw [← hscored, hdec] at hmem
      rcases List.mem_append.mp hmem with hmem | hmem
      · exact le_of_lt (hres1 ▸ hstrict _ hmem)
      · rcases List.mem_cons.mp hmem with heq | hmem
        · rw [show p = res.2 from congrArg Prod.snd heq]
        · exact hres1 ▸ hle _ (hdec ▸
            List.mem_append_right l₁ (List.mem_cons_of_mem _ hmem))
    · intro p hp
      rcases List.mem_map.mp hp with ⟨y, hy, hysnd⟩
      have hy1 : y.1 = compositeScore o y.2 := by
        refine hmem_fst y ?_
        rw [← hscored, hdec]
        exact List.mem_append_left _ hy
      have hlt := hstrict y hy
      rw [hy1, hysnd, hres1] at hlt
      exact hlt

/-- A tiny concrete oracle realising the spec §8 end-to-end scenario:
two alternatives with POI scores 3 and 1 and elevation variations 10
and 50, hence composite scores 8 and 26. -/
def sampleScenicOracle : ScenicOracle where
  geocode := fun _ => some (0, 0)
  directions := fun _ _ _ _ => [[(0, 0)], [(5, 5)]]
  parkCount := fun c => if c = (0, 0) then 3 else 1
  scenicPlaces := fun _ => []
  elevations := fun c _ => if c = [(0, 0)] then [0, 10] else [0, 50]

/-- Witness for `bestScenicSegment_first_max`: the second alternative
scores 26 against 8 and is selected. -/
theorem bestScenicSegment_first_max_witness :
    (sampleScenicOracle.directions (0, 0) (9, 9) "driving" false ≠ []) ∧
    bestScenicSegment sampleScenicOracle (0, 0) (9, 9) "driving" false =
      some [(5, 5)] ∧
    (∃ pre best post,
      sampleScenicOracle.directions (0, 0) (9, 9) "driving" false =
        pre ++ best :: post ∧
      bestScenicSegment sampleScenicOracle (0, 0) (9, 9) "driving" false =
        some best ∧
      (∀ p ∈ sampleScenicOracle.directions (0, 0) (9, 9) "driving" false,
        compositeScore sampleScenicOracle p ≤
          compositeScore sampleScenicOracle best) ∧
      (∀ p ∈ pre, compositeScore sampleScenicOracle p <
          compositeScore sampleScenicOracle best)) :=
  ⟨by simp [sampleScenicOracle],
    by
      norm_num [bestScenicSegment, sampleScenicOracle, compositeScore,
        poiDensityScore, elevationVariationScore, sampledCoords, everyNth,
        everyNthAux, totalVariation, maxByFst],
    bestScenicSegment_first_max sampleScenicOracle (0, 0) (9, 9) "driving"
      false (by simp [sampleScenicOracle])⟩

theorem everyNthAux_length (n : Nat) (hn : 1 ≤ n) :
    ∀ (l : List α) (k : Nat), k < n →
      (everyNthAux n l k).length = (l.length + (n - 1 - k)) / n := by
  intro l
  induction l with
  | nil =>
    intro k hk
    simp only [everyNthAux, List.length_nil, Nat.zero_add]
    rw [Nat.div_eq_of_lt (by omega)]
  | cons x xs ih =>
    intro k hk
    cases k with
    | zero =>
      rw [everyNthAux, List.length_cons, List.length_cons,
        ih (n - 1) (by omega)]
      rw [show n - 1 - (n - 1) = 0 from by omega, Nat.add_zero,
        show n - 1 - 0 = n - 1 from by omega,
        show xs.length + 1 + (n - 1) = xs.length + n from by omega,
        Nat.add_div_right _ (by omega)]
      simp
    | succ k' =>
      rw [everyNthAux, List.length_cons, ih k' (by omega)]
      refine congrArg (· / n) ?_
      omega

/-- The sample count of `coords[::max(1, len // 10)]` in closed form. -/
theorem sampledCoords_length (coords : List (ℚ × ℚ)) :
    (sampledCoords coords).length =
      if coords.length = 0 then 0
      else (coords.length - 1) / max 1 (coords.length / 10) + 1 := by
  rw [sampledCoords, everyNth,
    everyNthAux_length (max 1 (coords.length / 10)) (le_max_left 1 _)
      coords 0 (by omega)]
  rcases Nat.eq_zero_or_pos coords.length with h0 | hpos
  · rw [if_pos h0, h0, Nat.zero_add, Nat.div_eq_of_lt (by omega)]
  · rw [if_neg (by omega)]
    rw [show coords.length + (max 1 (coords.length / 10) - 1 - 0) =
        (coords.length - 1) + max 1 (coords.length / 10) from by omega,
      Nat.add_div_right _ (by omega)]

/-- Counterexample to C5 as stated: an 11-point path has stride
`max(1, 11 // 10) = 1` and is sampled at all 11 coordinates — more than
10 — and the extractor issues one places query per sample, so 11
queries are issued (here with a provider that never returns results). -/
theorem sampledCoords_more_than_ten_counterexample :
    (sampledCoords (List.replicate 11 ((0 : ℚ), (0 : ℚ)))).length = 11 ∧
    ¬ (sampledCoords (List.replicate 11 ((0 : ℚ), (0 : ℚ)))).length ≤ 10 := by
  refine ⟨?_, ?_⟩ <;> decide

/-- C5 (amended): the number of sampled coordinates is
`⌈n / max(1, ⌊n/10⌋)⌉`, i.e. `(n-1) / max(1, n // 10) + 1` for a
non-empty path; it equals `n` (hence is below 10) for paths with fewer
than 10 points, but in general it is only bounded by 19 (attained at
`n = 19`), not by 10. -/
theorem sampledCoords_count_characterization (coords : List (ℚ × ℚ)) :
    (coords.length < 10 →
      (sampledCoords coords).length = coords.length) ∧
    (coords ≠ [] →
      (sampledCoords coords).length =
        (coords.length - 1) / max 1 (coords.length / 10) + 1) ∧
    (sampledCoords coords).length ≤ 19 := by
  refine ⟨?_, ?_, ?_⟩
  · intro hlt
    rw [sampledCoords_length]
    have h10 : coords.length / 10 = 0 := Nat.div_eq_of_lt hlt
    rcases Nat.eq_zero_or_pos coords.length with h0 | hpos
    · rw [if_pos h0, h0]
    · rw [if_neg (by omega), h10, show max 1 0 = 1 from rfl, Nat.div_one]
      omega
  · intro hne
    rw [sampledCoords_length,
      if_neg (fun c => hne (List.eq_nil_of_length_eq_zero c))]
  · rw [sampledCoords_length]
    rcases Nat.eq_zero_or_pos coords.length with h0 | hpos
    · rw [if_pos h0]
      omega
    · rw [if_neg (by omega)]
      rcases lt_or_le coords.length 20 with hsmall | hbig
      · have hd := Nat.div_le_self (coords.length - 1)
          (max 1 (coords.length / 10))
        omega
      · have hmax : max 1 (coords.length / 10) = coords.length / 10 :=
          max_eq_right (by
            rw [Nat.le_div_iff_mul_le (by omega)]
            omega)
        rw [hmax]
        have hlt19 : (coords.length - 1) / (coords.length / 10) < 19 := by
          rw [Nat.div_lt_iff_lt_mul
            (Nat.div_pos (by omega) (by omega))]
          have hdm := Nat.div_add_mod coords.length 10
          have hmm := Nat.mod_lt coords.length (show 0 < 10 by omega)
          omega
        omega

/-- Witness for `sampledCoords_count_characterization` on a 3-point
path: all three coordinates are sampled. -/
theorem sampledCoords_count_characterization_witness :
    (([((0 : ℚ), (0 : ℚ)), (1, 1), (2, 2)] :
        List (ℚ × ℚ)).length < 10) ∧
    (sampledCoords [((0 : ℚ), (0 : ℚ)), (1, 1), (2, 2)]).length =
      ([((0 : ℚ), (0 : ℚ)), (1, 1), (2, 2)] : List (ℚ × ℚ)).length ∧
    (([((0 : ℚ), (0 : ℚ)), (1, 1), (2, 2)] : List (ℚ × ℚ)) ≠ []) ∧
    (sampledCoords [((0 : ℚ), (0 : ℚ)), (1, 1), (2, 2)]).length =
      (([((0 : ℚ), (0 : ℚ)), (1, 1), (2, 2)] :
          List (ℚ × ℚ)).length - 1) /
        max 1 (([((0 : ℚ), (0 : ℚ)), (1, 1), (2, 2)] :
          List (ℚ × ℚ)).length / 10) + 1 :=
  ⟨by decide,
    (sampledCoords_count_characterization _).1 (by decide),
    by decide,
    (sampledCoords_count_characterization _).2.1 (by decide)⟩

/-- `totalVariation` is the sum of absolute differences of consecutive
values — total variation, not net change. -/
theorem totalVariation_eq_sum (l : List ℚ) :
    totalVariation l =
      ∑ i ∈ Finset.range (l.length - 1),
        |l.getD (i + 1) 0 - l.getD i 0| := by
  induction l with
  | nil => rfl
  | cons a l ih =>
    cases l with
    | nil => rfl
    | cons b rest =>
      rw [totalVariation, ih]
      rw [show (a :: b :: rest).length - 1 = ((b :: rest).length - 1) + 1
        from by simp]
      rw [Finset.sum_range_succ']
      have hshift : ∀ i,
          |(a :: b :: rest).getD (i + 1 + 1) 0 -
            (a :: b :: rest).getD (i + 1) 0| =
          |(b :: rest).getD (i + 1) 0 - (b :: rest).getD i 0| := by
        intro i
        simp [List.getD_cons_succ]
      rw [Finset.sum_congr rfl fun i _ => hshift i]
      have h0 : |(a :: b :: rest).getD 1 0 - (a :: b :: rest).getD 0 0| =
          |a - b| := by
        rw [List.getD_cons_succ, List.getD_cons_zero, List.getD_cons_zero,
          abs_sub_comm]
      rw [h0, add_comm]

/-- C3: the composite scenic score is
`poi_total / max(1, n / 1000) + 0.5 × elevation_variation`, where
`poi_total` sums the places-nearby result counts over the coordinates
sampled with stride `max(1, n // 10)` and `elevation_variation` is the
total variation of the elevations fetched for `min(n, 10)` samples. -/
theorem compositeScore_formula (o : ScenicOracle) (pts : List (ℚ × ℚ)) :
    compositeScore o pts =
      ((((sampledCoords pts).map o.parkCount).sum : ℚ) /
          max 1 ((pts.length : ℚ) / 1000)) +
        (1 / 2) *
          ∑ i ∈ Finset.range
              ((o.elevations pts (min pts.length 10)).length - 1),
            |(o.elevations pts (min pts.length 10)).getD (i + 1) 0 -
              (o.elevations pts (min pts.length 10)).getD i 0| := by
  rw [compositeScore, poiDensityScore, elevationVariationScore,
    totalVariation_eq_sum]

-- ------------------------------------------------------------------
-- `_extract_scenic_waypoints` (scenic_agent.py lines 127-148)
-- ------------------------------------------------------------------

/-- The extraction loop, instrumented: walks the sampled coordinates,
querying `places` at each (the query log is accumulated in `queried`);
a sample with no results, or whose top result's `place_id` is already
in `seen`, is skipped; otherwise the top result is appended as a
waypoint and its `place_id` recorded, and the loop `break`s as soon as
5 waypoints have been collected.  Returns
`(waypoints, accepted place_ids (most recent first), queried samples)`. -/
def extractScenicAux (places : (ℚ × ℚ) → List Place) :
    List (ℚ × ℚ) → List String → List Waypoint → List (ℚ × ℚ) →
    List Waypoint × List String × List (ℚ × ℚ)
  | [], seen, wpts, queried => (wpts, seen, queried)
  | c :: rest, seen, wpts, queried =>
    match places c with
    | [] => extractScenicAux places rest seen wpts (queried ++ [c])
    | top :: _ =>
      if top.place_id ∈ seen then
        extractScenicAux places rest seen wpts (queried ++ [c])
      else
        if 5 ≤ (wpts ++ [Waypoint.mk top.name top.lat top.lng]).length then
          (wpts ++ [Waypoint.mk top.name top.lat top.lng],
            top.place_id :: seen, queried ++ [c])
        else
          extractScenicAux places rest (top.place_id :: seen)
            (wpts ++ [Waypoint.mk top.name top.lat top.lng]) (queried ++ [c])

/-- The full instrumented run of `_extract_scenic_waypoints` over the
sampled coordinates, from empty state. -/
def extractScenicFull (places : (ℚ × ℚ) → List Place)
    (coords : List (ℚ × ℚ)) :
    List Waypoint × List String × List (ℚ × ℚ) :=
  extractScenicAux places (sampledCoords coords) [] [] []

/-- `_extract_scenic_waypoints`: the returned waypoint list. -/
def extractScenicWaypoints (places : (ℚ × ℚ) → List Place)
    (coords : List (ℚ × ℚ)) : List Waypoint :=
  (extractScenicFull places coords).1

theorem extractScenicAux_length_le (places : (ℚ × ℚ) → List Place) :
    ∀ (samples : List (ℚ × ℚ)) (seen : List String)
      (wpts : List Waypoint) (q : List (ℚ × ℚ)),
      wpts.length < 5 →
      (extractScenicAux places samples seen wpts q).1.length ≤ 5 := by
  intro samples
  induction samples with
  | nil =>
    intro seen wpts q hlt
    exact le_of_lt hlt
  | cons c rest ih =>
    intro seen wpts q hlt
    rcases hpl : places c with _ | ⟨top, t⟩
    · simp only [extractScenicAux, hpl]
      exact ih _ _ _ hlt
    · simp only [extractScenicAux, hpl]
      by_cases hmem : top.place_id ∈ seen
      · rw [if_pos hmem]
        exact ih _ _ _ hlt
      · rw [if_neg hmem]
        by_cases hfull :
            5 ≤ (wpts ++ [Waypoint.mk top.name top.lat top.lng]).length
        · rw [if_pos hfull]
          show (wpts ++ [Waypoint.mk top.name top.lat top.lng]).length ≤ 5
          rw [List.length_append, List.length_singleton]
          omega
        · rw [if_neg hfull]
          refine ih _ _ _ ?_
          omega

theorem extractScenicAux_seen_spec (places : (ℚ × ℚ) → List Place) :
    ∀ (samples : List (ℚ × ℚ)) (seen : List String)
      (wpts : List Waypoint) (q : List (ℚ × ℚ)),
      seen.Nodup →
      (extractScenicAux places samples seen wpts q).2.1.Nodup ∧
      (extractScenicAux places samples seen wpts q).2.1.length +
          wpts.length =
        (extractScenicAux places samples seen wpts q).1.length +
          seen.length := by
  intro samples
  induction samples with
  | nil =>
    intro seen wpts q hnd
    refine ⟨hnd, ?_⟩
    show seen.length + wpts.length = wpts.length + seen.length
    omega
  | cons c rest ih =>
    intro seen wpts q hnd
    rcases hpl : places c with _ | ⟨top, t⟩
    · simp only [extractScenicAux, hpl]
      exact ih _ _ _ hnd
    · simp only [extractScenicAux, hpl]
      by_cases hmem : top.place_id ∈ seen
      · rw [if_pos hmem]
        exact ih _ _ _ hnd
      · rw [if_neg hmem]
        by_cases hfull :
            5 ≤ (wpts ++ [Waypoint.mk top.name top.lat top.lng]).length
        · rw [if_pos hfull]
          refine ⟨List.nodup_cons.mpr ⟨hmem, hnd⟩, ?_⟩
          show (top.place_id :: seen).length + wpts.length =
            (wpts ++ [Waypoint.mk top.name top.lat top.lng]).length +
              seen.length
          rw [List.length_cons, List.length_append, List.length_singleton]
          omega
        · rw [if_neg hfull]
          rcases ih (top.place_id :: seen)
              (wpts ++ [Waypoint.mk top.name top.lat top.lng]) (q ++ [c])
              (List.nodup_cons.mpr ⟨hmem, hnd⟩) with ⟨h1, h2⟩
          refine ⟨h1, ?_⟩
          simp only [List.length_cons, List.length_append,
            List.length_singleton, List.length_nil] at h2
          omega

theorem extractScenicAux_early_stop (places : (ℚ × ℚ) → List Place) :
    ∀ (samples more : List (ℚ × ℚ)) (seen : List String)
      (wpts : List Waypoint) (q : List (ℚ × ℚ)),
      wpts.length < 5 →
      (extractScenicAux places samples seen wpts q).1.length = 5 →
      extractScenicAux places (samples ++ more) seen wpts q =
        extractScenicAux places samples seen wpts q := by
  intro samples
  induction samples with
  | nil =>
    intro more seen wpts q hlt h5
    exact absurd (show wpts.length = 5 from h5) (by omega)
  | cons c rest ih =>
    intro more seen wpts q hlt h5
    rw [List.cons_append]
    rcases hpl : places c with _ | ⟨top, t⟩
    · simp only [extractScenicAux, hpl] at h5 ⊢
      exact ih _ _ _ _ hlt h5
    · simp only [extractScenicAux, hpl] at h5 ⊢
      by_cases hmem : top.place_id ∈ seen
      · simp only [if_pos hmem] at h5 ⊢
        exact ih _ _ _ _ hlt h5
      · simp only [if_neg hmem] at h5 ⊢
        by_cases hfull :
            5 ≤ (wpts ++ [Waypoint.mk top.name top.lat top.lng]).length
        · simp only [if_pos hfull]
        · simp only [if_neg hfull] at h5 ⊢
          refine ih _ _ _ _ ?_ h5
          omega

/-- C4: the extractor (i) returns at most 5 waypoints, (ii) the accepted
place identifiers are pairwise distinct and in bijection with the
returned waypoints, (iii) a sample with no results or an already-seen
top `place_id` is skipped with no waypoint and no error, and (iv) once
the run over some sample prefix has accepted its 5th waypoint,
processing any further samples changes nothing — in particular no
further places query is issued (the query log is unchanged): early
termination, not post-hoc truncation. -/
theorem extractScenicWaypoints_cap_dedup_early_stop
    (places : (ℚ × ℚ) → List Place) (coords : List (ℚ × ℚ))
    (samples more : List (ℚ × ℚ)) (c : ℚ × ℚ) :
    (extractScenicWaypoints places coords).length ≤ 5 ∧
    ((extractScenicFull places coords).2.1.Nodup ∧
      (extractScenicFull places coords).2.1.length =
        (extractScenicWaypoints places coords).length) ∧
    (places c = [] →
      ∀ rest seen wpts q,
        extractScenicAux places (c :: rest) seen wpts q =
          extractScenicAux places rest seen wpts (q ++ [c])) ∧
    (∀ top t seen, places c = top :: t → top.place_id ∈ seen →
      ∀ rest wpts q,
        extractScenicAux places (c :: rest) seen wpts q =
          extractScenicAux places rest seen wpts (q ++ [c])) ∧
    ((extractScenicAux places samples [] [] []).1.length = 5 →
      extractScenicAux places (samples ++ more) [] [] [] =
        extractScenicAux places samples [] [] []) := by
  refine ⟨?_, ?_, ?_, ?_, ?_⟩
  · exact extractScenicAux_length_le places _ _ _ _ (by simp)
  · rcases extractScenicAux_seen_spec places (sampledCoords coords) [] [] []
        List.nodup_nil with ⟨h1, h2⟩
    refine ⟨h1, ?_⟩
    simp only [List.length_nil] at h2
    rw [extractScenicFull, extractScenicWaypoints, extractScenicFull]
    omega
  · intro hempty rest seen wpts q
    simp only [extractScenicAux, hempty]
  · intro top t seen htop hmem rest wpts q
    simp only [extractScenicAux, htop, if_pos hmem]
  · exact extractScenicAux_early_stop places samples more [] [] []
      (by simp)

/-- Concrete places oracle for the extractor witness: no results at
`(0,0)`, a distinct park at each of `(1,0) … (5,0)`, and a sixth one
anywhere else. -/
def wtPlaces : (ℚ × ℚ) → List Place := fun c =>
  if c = (0, 0) then []
  else if c = (1, 0) then [⟨"p1", "P1", 1, 0⟩]
  else if c = (2, 0) then [⟨"p2", "P2", 2, 0⟩]
  else if c = (3, 0) then [⟨"p3", "P3", 3, 0⟩]
  else if c = (4, 0) then [⟨"p4", "P4", 4, 0⟩]
  else if c = (5, 0) then [⟨"p5", "P5", 5, 0⟩]
  else [⟨"p6", "P6", 6, 0⟩]

/-- Witness for `extractScenicWaypoints_cap_dedup_early_stop`: an
empty-result sample and an already-seen sample are skipped, and a run
that accepts its 5th waypoint at sample `(5,0)` ignores the extra
sample `(6,0)` entirely. -/
theorem extractScenicWaypoints_cap_dedup_early_stop_witness :
    (wtPlaces (0, 0) = []) ∧
    (extractScenicAux wtPlaces ((0, 0) :: [(2, 0)]) ["x"] [] [] =
      extractScenicAux wtPlaces [(2, 0)] ["x"] [] ([] ++ [(0, 0)])) ∧
    (wtPlaces (1, 0) = Place.mk "p1" "P1" 1 0 :: [] ∧
      ("p1" : String) ∈ ["p1"]) ∧
    (extractScenicAux wtPlaces ((1, 0) :: [(2, 0)]) ["p1"] [] [] =
      extractScenicAux wtPlaces [(2, 0)] ["p1"] [] ([] ++ [(1, 0)])) ∧
    ((extractScenicAux wtPlaces [(1, 0), (2, 0), (3, 0), (4, 0), (5, 0)]
        [] [] []).1.length = 5) ∧
    (extractScenicAux wtPlaces
        ([(1, 0), (2, 0), (3, 0), (4, 0), (5, 0)] ++ [(6, 0)]) [] [] [] =
      extractScenicAux wtPlaces [(1, 0), (2, 0), (3, 0), (4, 0), (5, 0)]
        [] [] []) :=
  ⟨by decide,
    (extractScenicWaypoints_cap_dedup_early_stop wtPlaces [] [] []
      (0, 0)).2.2.1 (by decide) [(2, 0)] ["x"] [] [],
    ⟨by decide, by decide⟩,
    (extractScenicWaypoints_cap_dedup_early_stop wtPlaces [] [] []
      (1, 0)).2.2.2.1 (Place.mk "p1" "P1" 1 0) [] ["p1"] (by decide)
      (by decide) [(2, 0)] [] [],
    by decide,
    (extractScenicWaypoints_cap_dedup_early_stop wtPlaces []
      [(1, 0), (2, 0), (3, 0), (4, 0), (5, 0)] [(6, 0)]
      (0, 0)).2.2.2.2 (by decide)⟩

-- ------------------------------------------------------------------
-- RouteIntent (models.py) and Python truthiness helpers
-- ------------------------------------------------------------------

/-- One entry of a stop's `gsr` (Google-search-result enrichment) list.
`name` is optional because `scenic_agent.py` reads it with
`g.get("name", ...)` while `fitness_agent.py` indexes `g["name"]`. -/
structure GsrEntry where
  name : Option String
  address : Option String
  latitude : ℚ
  longitude : ℚ
  deriving DecidableEq, Repr

/-- A stop dictionary: `name` is always indexed directly, `address` is
read with `.get`, and a missing or empty `gsr` list is falsy. -/
structure Stop where
  name : String
  address : Option String
  gsr : List GsrEntry
  deriving DecidableEq, Repr

structure LocationHint where
  city : Option String
  deriving DecidableEq, Repr

/-- `models.py` `RouteIntent`, restricted to the fields the route
assemblers read.  A `None` list field and an empty list are
indistinguishable to the truthiness tests the code performs, so both
are modelled as `[]`. -/
structure RouteIntent where
  origin : String
  destination : Option String
  travel_modes : List String
  constraints : List String
  optimize_waypoints : Option Bool
  stops : List Stop
  location_hint : Option LocationHint
  deriving DecidableEq, Repr

/-- Python `str.lower()` (ASCII case folding, as the code's inputs
use). -/
def pyLower (s : String) : String := ⟨s.data.map Char.toLower⟩

/-- Python `str.strip()`: drop whitespace from both ends. -/
def pyStrip (s : String) : String :=
  ⟨((s.data.dropWhile (·.isWhitespace)).reverse.dropWhile
    (·.isWhitespace)).reverse⟩

/-- Python `a or d` for an optional string: `None` and `""` are falsy. -/
def pyOrStr (a : Option String) (d : String) : String :=
  match a with
  | none => d
  | some s => if s = "" then d else s

/-- `not intent.destination or not intent.destination.strip()`. -/
def destBlank : Option String → Bool
  | none => true
  | some s => pyStrip s = ""

-- ------------------------------------------------------------------
-- Scenic route assembly (`scenic_agent.py` lines 26-82)
-- ------------------------------------------------------------------

/-- Resolving one stop to a named coordinate (`get_scenic_route` steps
(b)/(c)): use the first `gsr` enrichment if present (name defaulting to
the stop's name), else geocode `stop.get("address") or stop["name"]`. -/
def resolveStop (o : ScenicOracle) (stop : Stop) : Option Waypoint :=
  match stop.gsr with
  | g :: _ => some ⟨g.name.getD stop.name, g.latitude, g.longitude⟩
  | [] =>
    match o.geocode (pyOrStr stop.address stop.name) with
    | some loc => some ⟨stop.name, loc.1, loc.2⟩
    | none => none

/-- The location-hint fallback destination string of step (d):
`f"Nearby {city}"` when a hint with a truthy city exists, else the
origin. -/
def destFallback (intent : RouteIntent) : String :=
  match intent.location_hint with
  | some h =>
    match h.city with
    | some city => if city = "" then intent.origin else "Nearby " ++ city
    | none => intent.origin
  | none => intent.origin

/-- `get_scenic_route` step 1: origin, then resolved stops, then the
destination — promoting the last stop to destination when the
destination string is blank and stops exist. -/
def resolvePoints (o : ScenicOracle) (intent : RouteIntent) :
    Option (List Waypoint) := do
  let orig ← o.geocode intent.origin
  let p0 : Waypoint := ⟨intent.origin, orig.1, orig.2⟩
  if destBlank intent.destination ∧ intent.stops ≠ [] then do
    let last ← intent.stops.getLast?
    let dp ← resolveStop o last
    let mids ← intent.stops.dropLast.mapM (resolveStop o)
    pure (p0 :: (mids ++ [dp]))
  else do
    let mids ← intent.stops.mapM (resolveStop o)
    let destStr := pyOrStr intent.destination (destFallback intent)
    match o.geocode destStr with
    | some loc => pure (p0 :: (mids ++ [⟨destStr, loc.1, loc.2⟩]))
    | none => none

/-- `intent.travel_modes[0] if intent.travel_modes else "driving"`. -/
def scenicMode (intent : RouteIntent) : String :=
  match intent.travel_modes with
  | [] => "driving"
  | m :: _ => m

/-- `get_scenic_route` step 3: for each consecutive leg, select the best
scenic segment, extract its waypoints, and append them followed by the
leg's endpoint. -/
def scenicLegs (o : ScenicOracle) (mode : String) (optimize : Bool) :
    Waypoint → List Waypoint → Option (List Waypoint)
  | _, [] => some []
  | s, e :: rest => do
    let coords ← bestScenicSegment o (s.lat, s.lng) (e.lat, e.lng) mode
      optimize
    let tail ← scenicLegs o mode optimize e rest
    pure (extractScenicWaypoints o.scenicPlaces coords ++ e :: tail)

/-- `scenic_agent.py` lines 26-82 (`get_scenic_route`): resolve the key
points and walk the legs, seeding the output with the origin. -/
def getScenicRoute (o : ScenicOracle) (intent : RouteIntent) :
    Option (List Waypoint) := do
  let pts ← resolvePoints o intent
  match pts with
  | [] => none
  | p0 :: rest => do
    let tail ← scenicLegs o (scenicMode intent)
      (intent.optimize_waypoints.getD false) p0 rest
    pure (p0 :: tail)

theorem scenicLegs_getLast (o : ScenicOracle) (mode : String)
    (opt : Bool) :
    ∀ (rest : List Waypoint) (s : Waypoint) (tail : List Waypoint),
      scenicLegs o mode opt s rest = some tail →
      (s :: tail).getLast? = (s :: rest).getLast? := by
  intro rest
  induction rest with
  | nil =>
    intro s tail h
    rw [scenicLegs] at h
    rw [← Option.some_inj.mp h]
  | cons e rest ih =>
    intro s tail h
    rw [scenicLegs] at h
    rcases hbs : bestScenicSegment o (s.lat, s.lng) (e.lat, e.lng) mode opt
      with _ | coords
    · rw [hbs] at h
      exact absurd h (by simp)
    · rw [hbs] at h
      rcases hsl : scenicLegs o mode opt e rest with _ | tail'
      · rw [hsl] at h
        exact absurd h (by simp)
      · rw [hsl] at h
        simp only [Option.bind_eq_bind, Option.some_bind,
          Option.pure_def, Option.some_inj] at h
        subst h
        rw [show s :: (extractScenicWaypoints o.scenicPlaces coords ++
            e :: tail') = (s :: extractScenicWaypoints o.scenicPlaces coords)
            ++ (e :: tail') from by simp,
          List.getLast?_append_cons]
        rw [ih e tail' hsl]
        rw [show (s :: e :: rest) = [s] ++ (e :: rest) from rfl,
          List.getLast?_append_cons]

theorem resolvePoints_shape (o : ScenicOracle) (intent : RouteIntent)
    (pts : List Waypoint) (h : resolvePoints o intent = some pts) :
    ∃ loc rest, o.geocode intent.origin = some loc ∧
      pts = Waypoint.mk intent.origin loc.1 loc.2 :: rest := by
  rw [resolvePoints] at h
  rcases hg : o.geocode intent.origin with _ | loc
  · rw [hg] at h
    exact absurd h (by simp)
  · rw [hg] at h
    simp only [Option.bind_eq_bind, Option.some_bind] at h
    refine ⟨loc, ?_⟩
    by_cases hb : destBlank intent.destination ∧ intent.stops ≠ []
    · rw [if_pos hb] at h
      rcases hL : intent.stops.getLast? with _ | last
      · rw [hL] at h
        exact absurd h (by simp)
      · rw [hL] at h
        simp only [Option.some_bind] at h
        rcases hdp : resolveStop o last with _ | dp
        · rw [hdp] at h
          exact absurd h (by simp)
        · rw [hdp] at h
          simp only [Option.some_bind] at h
          rcases hm : intent.stops.dropLast.mapM (resolveStop o) with _ | mids
          · rw [hm] at h
            exact absurd h (by simp)
          · rw [hm] at h
            simp only [Option.some_bind, Option.pure_def,
              Option.some_inj] at h
            exact ⟨_, rfl, h.symm⟩
    · rw [if_neg hb] at h
      rcases hm : intent.stops.mapM (resolveStop o) with _ | mids
      · rw [hm] at h
        exact absurd h (by simp)
      · rw [hm] at h
        simp only [Option.some_bind] at h
        rcases hd : o.geocode (pyOrStr intent.destination
            (destFallback intent)) with _ | loc2
        · rw [hd] at h
          exact absurd h (by simp)
        · rw [hd] at h
          simp only [Option.pure_def, Option.some_inj] at h
          exact ⟨_, rfl, h.symm⟩

-- ------------------------------------------------------------------
-- Fitness constraint parsing (`fitness_agent.py` lines 59-67)
-- ------------------------------------------------------------------

/-- The numeric value of a digit string. -/
def natOfDigits (ds : List Char) : ℕ :=
  ds.foldl (fun acc c => acc * 10 + (c.toNat - 48)) 0

/-- `re.search(r"(\d+)\s*steps", c)` tried at the head of `l`: a
non-empty maximal digit run, any whitespace, then the literal
`steps`.  (Python `\s` is modelled by `Char.isWhitespace`.) -/
def matchStepsAt (l : List Char) : Option ℕ :=
  let ds := l.takeWhile (·.isDigit)
  if ds = [] then none
  else if "steps".toList.isPrefixOf
      ((l.dropWhile (·.isDigit)).dropWhile (·.isWhitespace)) then
    some (natOfDigits ds)
  else none

/-- `re.search` scanning: try the pattern at each start position, left
to right. -/
def searchSteps : List Char → Option ℕ
  | [] => none
  | c :: cs =>
    match matchStepsAt (c :: cs) with
    | some n => some n
    | none => searchSteps cs

/-- `re.search(r"burn\s*(\d+)\s*calorie", c)` tried at the head of
`l`. -/
def matchBurnAt (l : List Char) : Option ℕ :=
  if "burn".toList.isPrefixOf l then
    let r1 := (l.drop 4).dropWhile (·.isWhitespace)
    let ds := r1.takeWhile (·.isDigit)
    if ds = [] then none
    else if "calorie".toList.isPrefixOf
        ((r1.dropWhile (·.isDigit)).dropWhile (·.isWhitespace)) then
      some (natOfDigits ds)
    else none
  else none

def searchBurn : List Char → Option ℕ
  | [] => none
  | c :: cs =>
    match matchBurnAt (c :: cs) with
    | some n => some n
    | none => searchBurn cs

/-- `re.search(r"(\d+(?:\.\d+)?)\s*km", c)` tried at the head of `l`,
returning the matched group: greedily take the fractional part if the
remainder then reads `\s*km`, else backtrack to the bare integer. -/
def matchKmAt (l : List Char) : Option (List Char) :=
  let ds := l.takeWhile (·.isDigit)
  let rest := l.dropWhile (·.isDigit)
  if ds = [] then none
  else
    let noFrac : Option (List Char) :=
      if "km".toList.isPrefixOf (rest.dropWhile (·.isWhitespace)) then
        some ds
      else none
    match rest with
    | '.' :: r2 =>
      let fs := r2.takeWhile (·.isDigit)
      if fs = [] then noFrac
      else if "km".toList.isPrefixOf
          ((r2.dropWhile (·.isDigit)).dropWhile (·.isWhitespace)) then
        some (ds ++ '.' :: fs)
      else noFrac
    | _ => noFrac

def searchKm : List Char → Option (List Char)
  | [] => none
  | c :: cs =>
    match matchKmAt (c :: cs) with
    | some g => some g
    | none => searchKm cs

/-- The integer part, fractional part and fractional length of a
matched decimal group `\d+(\.\d+)?`. -/
def decimalParts (s : List Char) : ℕ × ℕ × ℕ :=
  let ds := s.takeWhile (·.isDigit)
  match s.dropWhile (·.isDigit) with
  | '.' :: fr => (natOfDigits ds, natOfDigits fr, fr.length)
  | _ => (natOfDigits ds, 0, 0)

/-- Python `float()` on a matched decimal group, as an exact rational. -/
def pyFloat (s : List Char) : ℚ :=
  ((decimalParts s).1 : ℚ) +
    ((decimalParts s).2.1 : ℚ) / (10 : ℚ) ^ (decimalParts s).2.2

/-- One iteration of the constraint loop (`fitness_agent.py` lines
61-67): each of the three patterns independently overwrites its goal
when it matches.  (The float literal `0.8` is modelled as `4/5`.) -/
def parseConstraintsStep (acc : Option ℚ × Option ℚ × Option ℚ)
    (c : String) : Option ℚ × Option ℚ × Option ℚ :=
  let s' := match searchSteps c.toList with
    | some n => some ((n : ℚ) * (4 / 5))
    | none => acc.1
  let t' := match searchKm c.toList with
    | some g => some (pyFloat g * 1000)
    | none => acc.2.1
  let cal' := match searchBurn c.toList with
    | some n => some ((n : ℚ))
    | none => acc.2.2
  (s', t', cal')

/-- The constraint loop: `(steps_m, target_m, target_cal)`, all three
initially absent (`None`). -/
def parseConstraints (cs : List String) :
    Option ℚ × Option ℚ × Option ℚ :=
  cs.foldl parseConstraintsStep (none, none, none)

/-- C9: the parser sets the steps goal to `N × 0.8`, the distance goal
to `N × 1000` and the calorie goal to `N` exactly when the respective
pattern matches; per string each pattern independently overwrites its
goal, so across the list the last match of each kind wins and
non-matching strings leave the goals unchanged (absent when nothing
matched).  Concretely: "10000 steps" ↦ 8000 m, "5.5 km" ↦ 5500 m,
"burn 150 calories" ↦ 150, and ["3 km", "7 km"] ↦ 7000 m. -/
theorem parseConstraints_spec :
    (∀ (cs : List String) (c : String), parseConstraints (cs ++ [c]) =
      parseConstraintsStep (parseConstraints cs) c) ∧
    (∀ (acc : Option ℚ × Option ℚ × Option ℚ) (c : String),
      (parseConstraintsStep acc c).1 =
        match searchSteps c.toList with
        | some n => some ((n : ℚ) * (4 / 5))
        | none => acc.1) ∧
    (∀ (acc : Option ℚ × Option ℚ × Option ℚ) (c : String),
      (parseConstraintsStep acc c).2.1 =
        match searchKm c.toList with
        | some g => some (pyFloat g * 1000)
        | none => acc.2.1) ∧
    (∀ (acc : Option ℚ × Option ℚ × Option ℚ) (c : String),
      (parseConstraintsStep acc c).2.2 =
        match searchBurn c.toList with
        | some n => some ((n : ℚ))
        | none => acc.2.2) ∧
    parseConstraints ["10000 steps"] = (some 8000, none, none) ∧
    parseConstraints ["5.5 km"] = (none, some 5500, none) ∧
    parseConstraints ["burn 150 calories"] = (none, none, some 150) ∧
    parseConstraints ["no matching constraint"] = (none, none, none) ∧
    parseConstraints ["3 km", "7 km"] = (none, some 7000, none) := by
  refine ⟨?_, fun acc c => rfl, fun acc c => rfl, fun acc c => rfl,
    ?_, ?_, ?_, ?_, ?_⟩
  · intro cs c
    rw [parseConstraints, parseConstraints, List.foldl_append,
      List.foldl_cons, List.foldl_nil]
  · have hs : searchSteps ("10000 steps".toList) = some 10000 := by decide
    have hk : searchKm ("10000 steps".toList) = none := by decide
    have hb : searchBurn ("10000 steps".toList) = none := by decide
    simp only [parseConstraints, List.foldl_cons, List.foldl_nil,
      parseConstraintsStep, hs, hk, hb, Prod.mk.injEq, Option.some_inj,
      and_true, true_and]
    norm_num
  · have hs : searchSteps ("5.5 km".toList) = none := by decide
    have hk : searchKm ("5.5 km".toList) =
        some ('5' :: '.' :: '5' :: []) := by decide
    have hb : searchBurn ("5.5 km".toList) = none := by decide
    have hd : decimalParts ('5' :: '.' :: '5' :: []) = (5, 5, 1) := by
      decide
    simp only [parseConstraints, List.foldl_cons, List.foldl_nil,
      parseConstraintsStep, hs, hk, hb, pyFloat, hd, Prod.mk.injEq,
      Option.some_inj, and_true, true_and]
    norm_num
  · have hs : searchSteps ("burn 150 calories".toList) = none := by decide
    have hk : searchKm ("burn 150 calories".toList) = none := by decide
    have hb : searchBurn ("burn 150 calories".toList) = some 150 := by
      decide
    simp only [parseConstraints, List.foldl_cons, List.foldl_nil,
      parseConstraintsStep, hs, hk, hb, Prod.mk.injEq, Option.some_inj,
      and_true, true_and]
    norm_num
  · have hs : searchSteps ("no matching constraint".toList) = none := by
      decide
    have hk : searchKm ("no matching constraint".toList) = none := by
      decide
    have hb : searchBurn ("no matching constraint".toList) = none := by
      decide
    simp only [parseConstraints, List.foldl_cons, List.foldl_nil,
      parseConstraintsStep, hs, hk, hb]
  · have hs3 : searchSteps ("3 km".toList) = none := by decide
    have hk3 : searchKm ("3 km".toList) = some ('3' :: []) := by decide
    have hb3 : searchBurn ("3 km".toList) = none := by decide
    have hs7 : searchSteps ("7 km".toList) = none := by decide
    have hk7 : searchKm ("7 km".toList) = some ('7' :: []) := by decide
    have hb7 : searchBurn ("7 km".toList) = none := by decide
    have hd7 : decimalParts ('7' :: []) = (7, 0, 0) := by decide
    simp only [parseConstraints, List.foldl_cons, List.foldl_nil,
      parseConstraintsStep, hs3, hk3, hb3, hs7, hk7, hb7, pyFloat, hd7,
      Prod.mk.injEq, Option.some_inj, and_true, true_and]
    norm_num

-- ------------------------------------------------------------------
-- Fitness route assembly (`fitness_agent.py` lines 50-157)
-- ------------------------------------------------------------------

/-- One directions leg: `distance.value`, `duration.value`,
`start_location`, `end_location`. -/
structure FitLeg where
  distance : ℤ
  duration : ℤ
  start_location : ℚ × ℚ
  end_location : ℚ × ℚ
  deriving DecidableEq, Repr

structure FitRoute where
  legs : List FitLeg
  deriving DecidableEq, Repr

/-- One enriched result of `PlacesTextSearchClient.search`
(google_text_search.py): name, formatted address, latitude,
longitude. -/
structure FitPoi where
  name : String
  address : Option String
  latitude : ℚ
  longitude : ℚ
  deriving DecidableEq, Repr

/-- The `current_metrics` dictionary passed to the planning model. -/
structure FitMetrics where
  distance_m : ℤ
  duration_s : ℤ
  calories : ℚ
  deriving DecidableEq, Repr

/-- External providers consumed by `FitnessAgent`: geocoding, places
text search, directions (waypoints given as `"lat,lng"` strings, or
`None` when the list is empty), and the NVIDIA planning model's
supplementary-waypoint response (`optimize_fitness_route`). -/
structure FitnessOracle where
  geocode : String → Option (ℚ × ℚ)
  textSearch : String → (ℚ × ℚ) → ℤ → List FitPoi
  directions : (ℚ × ℚ) → (ℚ × ℚ) → String → Option (List String) → Bool →
    List FitRoute
  extras : List Waypoint → List String → String → FitMetrics →
    List Waypoint

/-- `MET_VALUES`: walking 3.3, bicycling 6.0. -/
def metValue (mode : String) : Option ℚ :=
  if mode = "walking" then some (33 / 10)
  else if mode = "bicycling" then some 6
  else none

/-- `_estimate_calories`: `(met * 3.5 * weight / 200) * (duration/60)`,
with the MET defaulting to walking's. -/
def estimateCalories (duration_s : ℤ) (mode : String) (weight_kg : ℚ) :
    ℚ :=
  let met := (metValue mode).getD (33 / 10)
  let mins : ℚ := (duration_s : ℚ) / 60
  (met * (7 / 2) * weight_kg / 200) * mins

/-- Python `x or d` for an optional number: `None` and `0` are falsy. -/
def pyOrQ (a : Option ℚ) (d : ℚ) : ℚ :=
  match a with
  | none => d
  | some x => if x = 0 then d else x

/-- Python truthiness of an optional float (`None` and `0.0` falsy). -/
def qTruthy : Option ℚ → Bool
  | none => false
  | some x => x ≠ 0

/-- One disjunct of the unmet-goal test: `goal and value < goal`. -/
def qTruthyLt (goal : Option ℚ) (v : ℚ) : Bool :=
  match goal with
  | none => false
  | some t => if t = 0 then false else decide (v < t)

/-- `(intent.travel_modes or ["walking"])[0].lower()`. -/
def fitnessMode (intent : RouteIntent) : String :=
  pyLower (match intent.travel_modes with
    | [] => "walking"
    | m :: _ => m)

/-- Python `round(x, 2)` (round half to even at two decimals), on the
exact rational value. -/
def pyRound2 (x : ℚ) : ℚ :=
  let y := x * 100
  let f := ⌊y⌋
  let r := y - (f : ℚ)
  let n : ℤ :=
    if r < 1 / 2 then f
    else if 1 / 2 < r then f + 1
    else if f % 2 = 0 then f else f + 1
  (n : ℚ) / 100

/-- `fitness_agent.py` lines 50-130, steps 1-5 of `get_fitness_route`:
mode validation, constraint parsing, the steps-loop or point-to-point
directions request, the distance/duration/calorie totals, and the base
waypoint list (origin at the route's start location; then either the
loop POI and the return to origin, or the GSR stops and the destination
at the route's end location).  Fails (`none`) on an unsupported mode,
a failed geocode, an empty text-search or directions result, a route
without legs, or a GSR entry without a name. -/
def fitnessCore (o : FitnessOracle) (intent : RouteIntent)
    (weight_kg : Option ℚ) : Option (List Waypoint × ℤ × ℤ × ℚ) := do
  let mode := fitnessMode intent
  match metValue mode with
  | none => none
  | some _ => do
    let steps_m := (parseConstraints intent.constraints).1
    let origin := intent.origin
    let dest := pyOrStr intent.destination origin
    if qTruthy steps_m ∧ origin = dest then do
      let loc ← o.geocode origin
      let poi ← (o.textSearch "park|trail" loc ⌊steps_m.getD 0⌋).head?
      let wp := toString poi.latitude ++ "," ++ toString poi.longitude
      match o.directions loc loc mode (some [wp]) true with
      | [] => none
      | route :: _ => do
        let leg0 ← route.legs.head?
        let dist := (route.legs.map (·.distance)).sum
        let dur := (route.legs.map (·.duration)).sum
        let cal := estimateCalories dur mode (pyOrQ weight_kg 70)
        let sl := leg0.start_location
        pure ([⟨origin, sl.1, sl.2⟩,
          ⟨poi.name, poi.latitude, poi.longitude⟩,
          ⟨origin, sl.1, sl.2⟩], dist, dur, cal)
    else do
      let wp_coords := intent.stops.filterMap fun st =>
        match st.gsr with
        | g :: _ => some (toString g.latitude ++ "," ++
            toString g.longitude)
        | [] => none
      let start ← o.geocode origin
      let stop ← o.geocode dest
      match o.directions start stop mode
          (match wp_coords with | [] => none | l => some l)
          (intent.optimize_waypoints.getD false) with
      | [] => none
      | route :: _ => do
        let leg0 ← route.legs.head?
        let legN ← route.legs.getLast?
        let gsrOpts ← intent.stops.mapM fun st =>
          match st.gsr with
          | g :: _ =>
            match g.name with
            | some nm =>
              some (some (Waypoint.mk nm g.latitude g.longitude))
            | none => none
          | [] => some none
        let dist := (route.legs.map (·.distance)).sum
        let dur := (route.legs.map (·.duration)).sum
        let cal := estimateCalories dur mode (pyOrQ weight_kg 70)
        let sl := leg0.start_location
        let el := legN.end_location
        pure (⟨origin, sl.1, sl.2⟩ ::
          (gsrOpts.filterMap id ++ [⟨dest, el.1, el.2⟩]), dist, dur, cal)

/-- Step 6's unmet-goal test, in the code's disjunct order. -/
def fitnessUnmet (intent : RouteIntent) (dist : ℤ) (cal : ℚ) : Bool :=
  let parsed := parseConstraints intent.constraints
  qTruthyLt parsed.2.1 (dist : ℚ) || qTruthyLt parsed.1 (dist : ℚ) ||
    qTruthyLt parsed.2.2 cal

/-- The response of `get_fitness_route`. -/
structure FitnessMetrics where
  waypoints : List Waypoint
  total_distance_m : ℤ
  total_duration_s : ℤ
  calories_burned : ℚ
  deriving DecidableEq, Repr

/-- `fitness_agent.py` lines 50-157 (`get_fitness_route`): the base
route of `fitnessCore`, extended verbatim with the planning model's
supplementary waypoints when a parsed goal is unmet. -/
def getFitnessRoute (o : FitnessOracle) (intent : RouteIntent)
    (weight_kg : Option ℚ) : Option FitnessMetrics := do
  let (out, dist, dur, cal) ← fitnessCore o intent weight_kg
  let out' := if fitnessUnmet intent dist cal then
      out ++ o.extras out intent.constraints (fitnessMode intent)
        ⟨dist, dur, cal⟩
    else out
  pure ⟨out', dist, dur, pyRound2 cal⟩

theorem fitnessCore_shape (o : FitnessOracle) (intent : RouteIntent)
    (w : Option ℚ) (out : List Waypoint) (dist dur : ℤ) (cal : ℚ)
    (h : fitnessCore o intent w = some (out, dist, dur, cal)) :
    ∃ sl : ℚ × ℚ, out.head? = some ⟨intent.origin, sl.1, sl.2⟩ ∧
      (out.getLast? = some ⟨intent.origin, sl.1, sl.2⟩ ∨
        ∃ el : ℚ × ℚ, out.getLast? =
          some ⟨pyOrStr intent.destination intent.origin, el.1, el.2⟩) := by
  simp only [fitnessCore] at h
  rcases hmv : metValue (fitnessMode intent) with _ | mv
  · simp [hmv] at h
  · simp [hmv] at h
    by_cases hc : qTruthy (parseConstraints intent.constraints).1 ∧
        intent.origin = pyOrStr intent.destination intent.origin
    · rw [if_pos hc] at h
      rcases hg : o.geocode intent.origin with _ | loc
      · simp [hg] at h
      simp only [hg, Option.bind_eq_bind, Option.some_bind] at h
      rcases hp : (o.textSearch "park|trail" loc
          ⌊(parseConstraints intent.constraints).1.getD 0⌋).head?
        with _ | poi
      · simp [hp] at h
      simp only [hp, Option.some_bind] at h
      rcases hd : o.directions loc loc (fitnessMode intent)
          (some [toString poi.latitude ++ "," ++ toString poi.longitude])
          true with _ | ⟨route, rs⟩
      · simp [hd] at h
      simp only [hd] at h
      rcases hl : route.legs.head? with _ | leg0
      · simp [hl] at h
      simp only [hl, Option.some_bind, Option.pure_def,
        Option.some_inj] at h
      have hout : [(⟨intent.origin, leg0.start_location.1,
          leg0.start_location.2⟩ : Waypoint),
          ⟨poi.name, poi.latitude, poi.longitude⟩,
          ⟨intent.origin, leg0.start_location.1,
            leg0.start_location.2⟩] = out := congrArg Prod.fst h
      refine ⟨leg0.start_location, ?_, Or.inl ?_⟩
      · rw [← hout]
        rfl
      · rw [← hout]
        simp
    · rw [if_neg hc] at h
      rcases hg : o.geocode intent.origin with _ | start
      · simp [hg] at h
      simp only [hg, Option.bind_eq_bind, Option.some_bind] at h
      rcases hg2 : o.geocode (pyOrStr intent.destination intent.origin)
        with _ | stop
      · simp [hg2] at h
      simp only [hg2, Option.some_bind] at h
      rcases hd : o.directions start stop (fitnessMode intent)
          (match intent.stops.filterMap fun st =>
            match st.gsr with
            | g :: _ => some (toString g.latitude ++ "," ++
                toString g.longitude)
            | [] => none with
          | [] => none
          | l => some l)
          (intent.optimize_waypoints.getD false) with _ | ⟨route, rs⟩
      · simp [hd] at h
      simp only [hd] at h
      rcases hl : route.legs.head? with _ | leg0
      · simp [hl] at h
      simp only [hl, Option.some_bind] at h
      rcases hln : route.legs.getLast? with _ | legN
      · simp [hln] at h
      simp only [hln, Option.some_bind] at h
      rcases Option.bind_eq_some.mp h with ⟨gsrOpts, hgsr, h⟩
      simp only [Option.pure_def, Option.some_inj] at h
      have hout : (⟨intent.origin, leg0.start_location.1,
          leg0.start_location.2⟩ : Waypoint) ::
          (gsrOpts.filterMap id ++
            [⟨pyOrStr intent.destination intent.origin,
              legN.end_location.1, legN.end_location.2⟩]) = out :=
        congrArg Prod.fst h
      refine ⟨leg0.start_location, ?_, Or.inr
        ⟨legN.end_location, ?_⟩⟩
      · rw [← hout]
        rfl
      · rw [← hout]
        rw [show (⟨intent.origin, leg0.start_location.1,
            leg0.start_location.2⟩ : Waypoint) ::
            (gsrOpts.filterMap id ++
              [⟨pyOrStr intent.destination intent.origin,
                legN.end_location.1, legN.end_location.2⟩]) =
            ((⟨intent.origin, leg0.start_location.1,
              leg0.start_location.2⟩ : Waypoint) ::
              gsrOpts.filterMap id) ++
              (⟨pyOrStr intent.destination intent.origin,
                legN.end_location.1, legN.end_location.2⟩ :: []) from
          by simp, List.getLast?_append_cons]
        rfl

/-- C1 (amended): every returned scenic waypoint list starts with the
resolved origin and ends with the last resolved key point (the
destination).  Every returned fitness waypoint list is the base list
followed by the planning model's supplementary waypoints exactly when a
parsed goal is unmet (and by nothing otherwise); the base list starts
with the origin at the route's start location and ends either with the
loop-return point (equal to that origin point) or with the resolved
destination at the route's end location.  When supplementary waypoints
are appended, they — not the destination — are the final elements; the
claim's unconditional last-element property fails in exactly that
case. -/
theorem route_endpoints (so : ScenicOracle) (fo : FitnessOracle)
    (si fi : RouteIntent) (w : Option ℚ) :
    (∀ ws, getScenicRoute so si = some ws →
      ∃ loc pts, so.geocode si.origin = some loc ∧
        resolvePoints so si = some pts ∧
        ws.head? = some ⟨si.origin, loc.1, loc.2⟩ ∧
        ws.getLast? = pts.getLast?) ∧
    (∀ m, getFitnessRoute fo fi w = some m →
      ∃ out dist dur cal,
        fitnessCore fo fi w = some (out, dist, dur, cal) ∧
        m.waypoints = out ++ (if fitnessUnmet fi dist cal then
          fo.extras out fi.constraints (fitnessMode fi) ⟨dist, dur, cal⟩
          else []) ∧
        (∃ sl : ℚ × ℚ, out.head? = some ⟨fi.origin, sl.1, sl.2⟩ ∧
          (out.getLast? = some ⟨fi.origin, sl.1, sl.2⟩ ∨
            ∃ el : ℚ × ℚ, out.getLast? =
              some ⟨pyOrStr fi.destination fi.origin, el.1, el.2⟩))) := by
  constructor
  · intro ws h
    rw [getScenicRoute] at h
    rcases hrp : resolvePoints so si with _ | pts
    · simp [hrp] at h
    · simp only [hrp, Option.bind_eq_bind, Option.some_bind] at h
      cases pts with
      | nil => simp at h
      | cons p0 rest =>
        rcases hsl : scenicLegs so (scenicMode si)
            (si.optimize_waypoints.getD false) p0 rest with _ | tail
        · simp [hsl] at h
        · simp only [hsl, Option.some_bind, Option.pure_def,
            Option.some_inj] at h
          rcases resolvePoints_shape so si (p0 :: rest) hrp with
            ⟨loc, rest', hg, hshape⟩
          injection hshape with hp0 hrest
          refine ⟨loc, p0 :: rest, hg, rfl, ?_, ?_⟩
          · rw [← h, hp0]
            rfl
          · rw [← h]
            exact scenicLegs_getLast so (scenicMode si)
              (si.optimize_waypoints.getD false) rest p0 tail hsl
  · intro m h
    rw [getFitnessRoute] at h
    rcases hfc : fitnessCore fo fi w with _ | q
    · simp [hfc] at h
    · simp only [hfc, Option.bind_eq_bind, Option.some_bind] at h
      rcases q with ⟨out, dist, dur, cal⟩
      simp only [Option.pure_def, Option.some_inj] at h
      refine ⟨out, dist, dur, cal, rfl, ?_,
        fitnessCore_shape fo fi w out dist dur cal hfc⟩
      rw [← h]
      show (if fitnessUnmet fi dist cal then
          out ++ fo.extras out fi.constraints (fitnessMode fi)
            ⟨dist, dur, cal⟩
        else out) = _
      by_cases hu : fitnessUnmet fi dist cal
      · rw [if_pos hu, if_pos hu]
      · rw [if_neg hu, if_neg hu, List.append_nil]

/-- Concrete fitness providers for the C1 counterexample: a 1000 m /
600 s walking route from A to B, and a planning model that suggests one
supplementary waypoint X. -/
def cexFitOracle : FitnessOracle where
  geocode := fun s =>
    if s = "A" then some (1, 2) else if s = "B" then some (3, 4) else none
  textSearch := fun _ _ _ => []
  directions := fun _ _ _ _ _ => [⟨[⟨1000, 600, (1, 2), (3, 4)⟩]⟩]
  extras := fun _ _ _ _ => [⟨"X", 5, 6⟩]

/-- A fitness request from A to B with an unmet 7 km distance goal. -/
def cexFitIntent : RouteIntent where
  origin := "A"
  destination := some "B"
  travel_modes := ["walking"]
  constraints := ["7 km"]
  optimize_waypoints := none
  stops := []
  location_hint := none

theorem cexParse : parseConstraints ["7 km"] = (none, some 7000, none) := by
  have hs : searchSteps ("7 km".toList) = none := by decide
  have hk : searchKm ("7 km".toList) = some ('7' :: []) := by decide
  have hb : searchBurn ("7 km".toList) = none := by decide
  have hd : decimalParts ('7' :: []) = (7, 0, 0) := by decide
  simp only [parseConstraints, List.foldl_cons, List.foldl_nil,
    parseConstraintsStep, hs, hk, hb, pyFloat, hd, Prod.mk.injEq,
    Option.some_inj, and_true, true_and]
  norm_num

theorem cexFitnessMode : fitnessMode cexFitIntent = "walking" := by decide

theorem cexCore : fitnessCore cexFitOracle cexFitIntent none =
    some ([⟨"A", 1, 2⟩, ⟨"B", 3, 4⟩], 1000, 600,
      estimateCalories 600 "walking" 70) := by
  have horig : cexFitIntent.origin = "A" := rfl
  have hdest : cexFitIntent.destination = some "B" := rfl
  have hcons : cexFitIntent.constraints = ["7 km"] := rfl
  have hstops : cexFitIntent.stops = [] := rfl
  have hopt : cexFitIntent.optimize_waypoints = none := rfl
  have hgA : cexFitOracle.geocode "A" = some (1, 2) := rfl
  have hgB : cexFitOracle.geocode "B" = some (3, 4) := rfl
  have hdir : cexFitOracle.directions (1, 2) (3, 4) "walking" none false =
      [⟨[⟨1000, 600, (1, 2), (3, 4)⟩]⟩] := rfl
  simp only [fitnessCore, cexFitnessMode, horig, hdest, hcons, hstops,
    hopt, cexParse, metValue, qTruthy, pyOrStr, pyOrQ, Option.getD,
    List.filterMap_nil, List.mapM, List.mapM.loop, List.reverse_nil]
  simp [hgA, hgB, hdir]

theorem cexUnmet :
    fitnessUnmet cexFitIntent 1000 (estimateCalories 600 "walking" 70) =
      true := by
  have hcons : cexFitIntent.constraints = ["7 km"] := rfl
  simp only [fitnessUnmet, hcons, cexParse, qTruthyLt]
  norm_num

theorem cexRoute : getFitnessRoute cexFitOracle cexFitIntent none =
    some ⟨[⟨"A", 1, 2⟩, ⟨"B", 3, 4⟩, ⟨"X", 5, 6⟩], 1000, 600,
      pyRound2 (estimateCalories 600 "walking" 70)⟩ := by
  have hex : cexFitOracle.extras [⟨"A", 1, 2⟩, ⟨"B", 3, 4⟩]
      cexFitIntent.constraints (fitnessMode cexFitIntent)
      ⟨1000, 600, estimateCalories 600 "walking" 70⟩ =
      [⟨"X", 5, 6⟩] := rfl
  rw [getFitnessRoute, cexCore]
  simp only [Option.bind_eq_bind, Option.some_bind, cexUnmet, if_true,
    hex, Option.pure_def, Option.some_inj]
  rfl

/-- Counterexample to C1 as stated: with an unmet 7 km goal, the
supplementary waypoint X is appended after the destination, so the
returned fitness list ends with X, not with the resolved
destination B. -/
theorem fitness_last_not_destination_counterexample :
    (getFitnessRoute cexFitOracle cexFitIntent none).map (·.waypoints) =
      some [⟨"A", 1, 2⟩, ⟨"B", 3, 4⟩, ⟨"X", 5, 6⟩] ∧
    ([(⟨"A", 1, 2⟩ : Waypoint), ⟨"B", 3, 4⟩, ⟨"X", 5, 6⟩]).getLast? =
      some ⟨"X", 5, 6⟩ ∧
    pyOrStr cexFitIntent.destination cexFitIntent.origin = "B" ∧
    (Waypoint.mk "X" 5 6).name ≠ "B" := by
  refine ⟨?_, by decide, by decide, by decide⟩
  rw [cexRoute]
  rfl

/-- A simple scenic request from A to B with no stops, for the C1
witness. -/
def wScenicIntent : RouteIntent :=
  ⟨"A", some "B", ["driving"], [], none, [], none⟩

theorem wScenicResolve : resolvePoints sampleScenicOracle wScenicIntent =
    some [⟨"A", 0, 0⟩, ⟨"B", 0, 0⟩] := by
  have horig : wScenicIntent.origin = "A" := rfl
  have hdest : wScenicIntent.destination = some "B" := rfl
  have hstops : wScenicIntent.stops = [] := rfl
  have hg : ∀ s, sampleScenicOracle.geocode s = some (0, 0) := fun _ => rfl
  simp only [resolvePoints, horig, hdest, hstops, hg, pyOrStr,
    destFallback, Option.bind_eq_bind, Option.some_bind, List.mapM_nil]
  simp

theorem wScenicExtract :
    extractScenicWaypoints sampleScenicOracle.scenicPlaces [(5, 5)] =
      [] := by decide

theorem wScenicEval : getScenicRoute sampleScenicOracle wScenicIntent =
    some [⟨"A", 0, 0⟩, ⟨"B", 0, 0⟩] := by
  have hmode : scenicMode wScenicIntent = "driving" := rfl
  have hopt : wScenicIntent.optimize_waypoints = none := rfl
  have hbest : bestScenicSegment sampleScenicOracle (0, 0) (0, 0)
      "driving" false = some [(5, 5)] := by
    norm_num [bestScenicSegment, sampleScenicOracle, compositeScore,
      poiDensityScore, elevationVariationScore, sampledCoords, everyNth,
      everyNthAux, totalVariation, maxByFst]
  rw [getScenicRoute, wScenicResolve]
  simp only [Option.bind_eq_bind, Option.some_bind, hmode, hopt,
    Option.getD, scenicLegs]
  rw [show ((⟨"A", 0, 0⟩ : Waypoint).lat, (⟨"A", 0, 0⟩ : Waypoint).lng) =
    ((0 : ℚ), (0 : ℚ)) from rfl,
    show ((⟨"B", 0, 0⟩ : Waypoint).lat, (⟨"B", 0, 0⟩ : Waypoint).lng) =
    ((0 : ℚ), (0 : ℚ)) from rfl, hbest]
  simp only [Option.some_bind, wScenicExtract, List.nil_append,
    Option.pure_def, Option.some_inj]

/-- Witness for `route_endpoints`: a concrete scenic A→B request and
the concrete fitness request of the counterexample, with both
conclusions instantiated. -/
theorem route_endpoints_witness :
    (getScenicRoute sampleScenicOracle wScenicIntent =
      some [⟨"A", 0, 0⟩, ⟨"B", 0, 0⟩]) ∧
    (∃ loc pts,
      sampleScenicOracle.geocode wScenicIntent.origin = some loc ∧
      resolvePoints sampleScenicOracle wScenicIntent = some pts ∧
      ([(⟨"A", 0, 0⟩ : Waypoint), ⟨"B", 0, 0⟩]).head? =
        some ⟨wScenicIntent.origin, loc.1, loc.2⟩ ∧
      ([(⟨"A", 0, 0⟩ : Waypoint), ⟨"B", 0, 0⟩]).getLast? =
        pts.getLast?) ∧
    (getFitnessRoute cexFitOracle cexFitIntent none =
      some ⟨[⟨"A", 1, 2⟩, ⟨"B", 3, 4⟩, ⟨"X", 5, 6⟩], 1000, 600,
        pyRound2 (estimateCalories 600 "walking" 70)⟩) ∧
    (∃ out dist dur cal,
      fitnessCore cexFitOracle cexFitIntent none =
        some (out, dist, dur, cal) ∧
      (FitnessMetrics.mk [⟨"A", 1, 2⟩, ⟨"B", 3, 4⟩, ⟨"X", 5, 6⟩] 1000 600
          (pyRound2 (estimateCalories 600 "walking" 70))).waypoints =
        out ++ (if fitnessUnmet cexFitIntent dist cal then
          cexFitOracle.extras out cexFitIntent.constraints
            (fitnessMode cexFitIntent) ⟨dist, dur, cal⟩
          else []) ∧
      (∃ sl : ℚ × ℚ, out.head? =
          some ⟨cexFitIntent.origin, sl.1, sl.2⟩ ∧
        (out.getLast? = some ⟨cexFitIntent.origin, sl.1, sl.2⟩ ∨
          ∃ el : ℚ × ℚ, out.getLast? =
            some ⟨pyOrStr cexFitIntent.destination cexFitIntent.origin,
              el.1, el.2⟩))) :=
  ⟨wScenicEval,
    (route_endpoints sampleScenicOracle cexFitOracle wScenicIntent
      cexFitIntent none).1 [⟨"A", 0, 0⟩, ⟨"B", 0, 0⟩] wScenicEval,
    cexRoute,
    (route_endpoints sampleScenicOracle cexFitOracle wScenicIntent
      cexFitIntent none).2
      ⟨[⟨"A", 1, 2⟩, ⟨"B", 3, 4⟩, ⟨"X", 5, 6⟩], 1000, 600,
        pyRound2 (estimateCalories 600 "walking" 70)⟩ cexRoute⟩

-- ------------------------------------------------------------------
-- NVIDIA planning agent (`nvidia_agent.py`)
-- ------------------------------------------------------------------

/-- Python substring test `pat in s` over character lists. -/
def containsSub (pat : List Char) : List Char → Bool
  | [] => pat.isPrefixOf ([] : List Char)
  | c :: rest => pat.isPrefixOf (c :: rest) || containsSub pat rest

/-- Python `pat in s` on strings. -/
def strContains (s pat : String) : Bool := containsSub pat.data s.data

/-- `any(word in s for word in ws)`. -/
def anyWordIn (s : String) (ws : List String) : Bool :=
  ws.any fun w => strContains s w

/-- An apostrophe, kept out of string literals. -/
def apos : String := (Char.ofNat 39).toString

/-- Python `str.title()`: uppercase every alphabetic character that
follows a non-alphabetic one, lowercase the rest. -/
def titleAux : List Char → Bool → List Char
  | [], _ => []
  | c :: cs, start =>
    if c.isAlpha then
      (if start then c.toUpper else c.toLower) :: titleAux cs false
    else c :: titleAux cs true

def pyTitle (s : String) : String := ⟨titleAux s.data true⟩

/-- Python `str.split()` with no separator: split on whitespace runs,
dropping empty parts. -/
def pySplitWs (s : String) : List String :=
  (s.split (·.isWhitespace)).filter (· ≠ "")

/-- `json.dumps` of a list of plain strings. -/
def jsonStrList (xs : List String) : String :=
  "[" ++ String.intercalate ", " (xs.map fun s => "\"" ++ s ++ "\"") ++ "]"

/-- The route-planning mock response for a scenic request
(nvidia_agent.py lines 154-159). -/
def mockPlanScenic : String :=
  "[\n                    \x7b\"name\": \"Starting Point\", \"lat\": 37.8712141, \"lng\": -122.255463\x7d,\n                    \x7b\"name\": \"Tilden Regional Park\", \"lat\": 37.8840, \"lng\": -122.2500\x7d,\n                    \x7b\"name\": \"Berkeley Hills Scenic Overlook\", \"lat\": 37.8900, \"lng\": -122.2400\x7d,\n                    \x7b\"name\": \"Destination\", \"lat\": 37.6955029, \"lng\": -122.0738678\x7d\n                ]"

/-- The route-planning mock response for a fitness request (lines
161-166). -/
def mockPlanFitness : String :=
  "[\n                    \x7b\"name\": \"Starting Point\", \"lat\": 37.8712141, \"lng\": -122.255463\x7d,\n                    \x7b\"name\": \"Berkeley Marina\", \"lat\": 37.8600, \"lng\": -122.3200\x7d,\n                    \x7b\"name\": \"Cesar Chavez Park\", \"lat\": 37.8650, \"lng\": -122.3150\x7d,\n                    \x7b\"name\": \"Fitness Loop Return\", \"lat\": 37.8712141, \"lng\": -122.255463\x7d\n                ]"

/-- The route-planning mock response for a date request (lines
168-173). -/
def mockPlanDate : String :=
  "[\n                    \x7b\"name\": \"Starting Point\", \"lat\": 37.8712141, \"lng\": -122.255463\x7d,\n                    \x7b\"name\": \"Romantic Restaurant\", \"lat\": 37.8720, \"lng\": -122.2682\x7d,\n                    \x7b\"name\": \"Sunset Viewpoint\", \"lat\": 37.8811, \"lng\": -122.2968\x7d,\n                    \x7b\"name\": \"Evening Destination\", \"lat\": 37.8750, \"lng\": -122.2590\x7d\n                ]"

/-- The route-planning mock response for a commute request (lines
175-180). -/
def mockPlanCommute : String :=
  "[\n                    \x7b\"name\": \"Starting Point\", \"lat\": 37.8712141, \"lng\": -122.255463\x7d,\n                    \x7b\"name\": \"Highway Entrance\", \"lat\": 37.8500, \"lng\": -122.2300\x7d,\n                    \x7b\"name\": \"Express Route\", \"lat\": 37.8000, \"lng\": -122.2000\x7d,\n                    \x7b\"name\": \"Work Destination\", \"lat\": 37.7500, \"lng\": -122.1500\x7d\n                ]"

/-- The default route-planning mock response (lines 182-186). -/
def mockPlanDefault : String :=
  "[\n                    \x7b\"name\": \"Starting Point\", \"lat\": 37.8712141, \"lng\": -122.255463\x7d,\n                    \x7b\"name\": \"Intermediate Stop\", \"lat\": 37.8000, \"lng\": -122.2000\x7d,\n                    \x7b\"name\": \"Final Destination\", \"lat\": 37.7500, \"lng\": -122.1500\x7d\n                ]"

/-- The fitness-optimization mock response (lines 190-193). -/
def mockFitnessOpt : String :=
  "[\n                \x7b\"name\": \"Berkeley Marina Fitness Loop\", \"lat\": 37.8600, \"lng\": -122.3200\x7d,\n                \x7b\"name\": \"Cesar Chavez Park Track\", \"lat\": 37.8650, \"lng\": -122.3150\x7d\n            ]"

/-- The general chat mock response (line 197). -/
def mockChat : String :=
  "I" ++ apos ++
    "m an NVIDIA AI assistant. I can help you plan routes based on your preferences. Try asking for a scenic route, fitness walk, or commute path!"

/-- The route-planning branch of `_get_mock_response` (lines 151-186):
keyword dispatch over the lowered user message. -/
def mockPlanResponse (user : String) : String :=
  let ul := pyLower user
  if anyWordIn ul ["scenic", "beautiful", "nature", "park"] then
    mockPlanScenic
  else if anyWordIn ul ["fitness", "health", "walk", "exercise", "step",
      "steps", "stroll", "jog", "run"] then
    mockPlanFitness
  else if anyWordIn ul ["date", "dinner", "romantic", "night"] then
    mockPlanDate
  else if anyWordIn ul ["commute", "work", "fast", "quick"] then
    mockPlanCommute
  else mockPlanDefault

/-- The intent-parsing branch of `_get_mock_response` (lines 79-148):
keyword-based intent type, origin/destination extraction from the
lowered message, travel-mode detection, and the canned JSON template.
Returns `none` when the Python code would raise (the `" in "` branch
indexes `split()[0]` of a possibly empty token list). -/
def mockIntentResponse (user : String) : Option String :=
  let ul := pyLower user
  let scenicHit := anyWordIn ul ["scenic", "beautiful", "nature", "park",
    "view"]
  let healthHit := anyWordIn ul ["fitness", "walk", "exercise", "step",
    "steps", "calories", "health", "stroll", "jog", "run"]
  let eventHit := anyWordIn ul ["date", "dinner", "night", "restaurant",
    "romantic"]
  let commuteHit := anyWordIn ul ["commute", "work", "fast", "quick",
    "shortest"]
  let ecoHit := anyWordIn ul ["eco", "green", "environment", "electric"]
  let intentType :=
    if scenicHit then "Scenic"
    else if healthHit then "Health"
    else if eventHit then "Event"
    else if commuteHit then "Commute"
    else if ecoHit then "Eco-conscious"
    else "Other"
  let constraints : List String :=
    if scenicHit then ["scenic route"]
    else if healthHit then
      (if anyWordIn ul ["step", "steps"] then ["10000 steps"] else []) ++
        (if strContains ul "calories" then ["burn calories"] else [])
    else if eventHit then ["date night"]
    else if commuteHit then ["fastest route"]
    else if ecoHit then ["eco-friendly"]
    else []
  let origin? : Option String :=
    if strContains ul " from " then
      let p1 := ((ul.splitOn " from ").get? 1).getD ""
      let lp := if strContains p1 " to " then
          pyStrip (((p1.splitOn " to ").get? 0).getD "")
        else pyStrip p1
      some (pyTitle lp)
    else if strContains ul "starting at" then
      let p1 := ((ul.splitOn "starting at").get? 1).getD ""
      some (pyTitle (pyStrip (((p1.splitOn ",").get? 0).getD "")))
    else if strContains ul " in " then
      let p1 := ((ul.splitOn " in ").get? 1).getD ""
      match pySplitWs p1 with
      | [] => none
      | w :: _ => some (pyTitle w)
    else some "UC Berkeley"
  let destination :=
    if strContains ul " to " then
      pyTitle (pyStrip (((ul.splitOn " to ").get? 1).getD ""))
    else ""
  let travelModes : List String :=
    if anyWordIn ul ["walk", "walking", "stroll", "step", "steps", "jog",
        "jogging"] then ["walking"]
    else if anyWordIn ul ["bike", "cycling", "bicycle"] then ["bicycling"]
    else if anyWordIn ul ["transit", "bus", "train"] then ["transit"]
    else if intentType = "Health" then ["walking"]
    else ["driving"]
  origin?.map fun origin =>
    "\x7b\n                \"intent_type\": \"" ++ intentType ++
      "\",\n                \"origin\": \"" ++ origin ++
      "\",\n                \"destination\": \"" ++ destination ++
      "\",\n                \"travel_modes\": " ++ jsonStrList travelModes ++
      ",\n                \"constraints\": " ++ jsonStrList constraints ++
      ",\n                \"avoid\": [],\n                \"optimize_waypoints\": true\n            \x7d"

/-- `_get_mock_response` (lines 73-197): dispatch on the first
(system) and last (user) message contents. -/
def getMockResponse (messages : List (String × String)) : Option String :=
  let user := ((messages.getLast?).map (·.2)).getD ""
  let system := ((messages.head?).map (·.2)).getD ""
  if strContains system ("Parse the user" ++ apos ++
      "s request into JSON") || strContains system "intent_type" then
    mockIntentResponse user
  else if strContains system "generate a JSON array of waypoints" ||
      strContains user "Generate waypoints" then
    some (mockPlanResponse user)
  else if strContains system "fitness route optimizer" ||
      strContains user "fitness" then
    some mockFitnessOpt
  else some mockChat

/-- The embedded `NVIDIAAgent` state: resolved API key, base URL, and
the mock flag. -/
structure NVIDIAAgentS where
  api_key : Option String
  base_url : String
  mock_mode : Bool
  deriving DecidableEq, Repr

/-- Python truthiness of an optional string (`None` and `""` falsy). -/
def optStrTruthy : Option String → Bool
  | none => false
  | some s => s ≠ ""

/-- Python `a or b` on optional strings. -/
def pyOrOpt (a b : Option String) : Option String :=
  if optStrTruthy a then a else b

/-- `NVIDIAAgent.__init__` (lines 24-29): resolve the key against the
environment, raise (`none`) when keyless and not in mock mode. -/
def NVIDIAAgentInit (api_key envKey : Option String) (base_url : String)
    (mock_mode : Bool) : Option NVIDIAAgentS :=
  let key := pyOrOpt api_key envKey
  if optStrTruthy key = false ∧ mock_mode = false then none
  else some ⟨key, base_url, mock_mode⟩

/-- `FitnessAgent.__init__` lines 34-37: `NVIDIAAgent(api_key=
nvidia_key or os.getenv("NVIDIA_API_KEY"))` — `base_url` and
`mock_mode` are left at their defaults. -/
def fitnessNvidiaAgent (nvidia_key envKey : Option String) :
    Option NVIDIAAgentS :=
  NVIDIAAgentInit (pyOrOpt nvidia_key envKey) envKey
    "https://api.nvcf.nvidia.com/v1" true

/-- `FallbackAgent.__init__` lines 28-31: identical construction. -/
def fallbackNvidiaAgent (nvidia_key envKey : Option String) :
    Option NVIDIAAgentS :=
  NVIDIAAgentInit (pyOrOpt nvidia_key envKey) envKey
    "https://api.nvcf.nvidia.com/v1" true

/-- A live HTTP request to the completion API (the non-mock branch of
`_make_request`), recorded as an opaque boundary event. -/
structure LiveCall where
  base_url : String
  modelId : String
  deriving DecidableEq, Repr

/-- `_make_request` (lines 31-71): return the mock response in mock
mode, otherwise perform the live POST.  `Except.ok none` models an
exception raised while building the mock response. -/
def makeRequest (a : NVIDIAAgentS) (modelId : String)
    (messages : List (String × String)) :
    Except LiveCall (Option String) :=
  if a.mock_mode then Except.ok (getMockResponse messages)
  else Except.error ⟨a.base_url, modelId⟩

/-- `plan_route`'s system prompt (lines 244-248). -/
def planSystemPrompt : String :=
  "\nYou are a route planner. Given route intent details, generate a JSON array of waypoints.\nEach waypoint should have: \x7b\"name\": \"place name\", \"lat\": latitude, \"lng\": longitude\x7d\nReturn ONLY the JSON array, no explanation.\n"

/-- `optimize_fitness_route`'s system prompt (lines 290-293). -/
def fitnessOptSystemPrompt : String :=
  "\nYou are a fitness route optimizer. Given current route metrics and fitness constraints,\nsuggest additional waypoints to meet fitness goals. Return only JSON array of waypoints.\n"

/-- `response.find("[")`, `response.rfind("]")` and the slice
`response[start:end+1]`; `none` when either bracket is missing
(`RuntimeError`).  The JSON decoding of the slice is the provider
boundary and is not modelled. -/
def jsonArraySlice (s : String) : Option String :=
  match s.data.findIdx? (· = '['), s.data.reverse.findIdx? (· = ']') with
  | some st, some rev =>
    let stop := s.data.length - 1 - rev
    some ⟨(s.data.drop st).take (stop + 1 - st)⟩
  | _, _ => none

/-- `re.search(r"\[.*\]", s, DOTALL)`: greedy from the first `[` to the
last `]`, provided that `]` comes after the `[`; `none` means
`optimize_fitness_route` returns the empty list. -/
def bracketMatch (s : String) : Option String :=
  match s.data.findIdx? (· = '['), s.data.reverse.findIdx? (· = ']') with
  | some st, some rev =>
    let stop := s.data.length - 1 - rev
    if st < stop then some ⟨(s.data.drop st).take (stop + 1 - st)⟩
    else none
  | _, _ => none

/-- `plan_route` (lines 240-282), with the Python-dict rendering of the
intent abstracted into the user-prompt string. -/
def planRoute (a : NVIDIAAgentS) (userPrompt : String) :
    Except LiveCall (Option String) :=
  match makeRequest a "nvidia/llama3-8b-instruct"
      [("system", planSystemPrompt), ("user", userPrompt)] with
  | Except.error e => Except.error e
  | Except.ok none => Except.ok none
  | Except.ok (some resp) => Except.ok (jsonArraySlice resp)

/-- `optimize_fitness_route` (lines 284-325), likewise. -/
def optimizeFitnessRoute (a : NVIDIAAgentS) (userPrompt : String) :
    Except LiveCall (Option String) :=
  match makeRequest a "nvidia/llama3-8b-instruct"
      [("system", fitnessOptSystemPrompt), ("user", userPrompt)] with
  | Except.error e => Except.error e
  | Except.ok none => Except.ok none
  | Except.ok (some resp) => Except.ok (bracketMatch resp)

set_option maxRecDepth 100000 in
/-- C10: both `FitnessAgent` and `FallbackAgent` construct the NVIDIA
agent without overriding the constructor's `mock_mode=True` default, so
the constructed agent always has `mock_mode = true`; every
`_make_request` through it returns the canned mock response and never
the live-API branch, and `plan_route`/`optimize_fitness_route` behave
identically whether or not an API key is configured — concretely
returning the canned scenic plan and fitness-optimizer payloads. -/
theorem nvidia_agents_always_mock (nk ek : Option String) :
    ∃ a : NVIDIAAgentS,
      fitnessNvidiaAgent nk ek = some a ∧
      fallbackNvidiaAgent nk ek = some a ∧
      a.mock_mode = true ∧
      (∀ modelId msgs, makeRequest a modelId msgs =
        Except.ok (getMockResponse msgs)) ∧
      (∀ up, planRoute a up = planRoute ⟨none, a.base_url, true⟩ up ∧
        optimizeFitnessRoute a up =
          optimizeFitnessRoute ⟨none, a.base_url, true⟩ up) ∧
      (∀ up, (∃ v, planRoute a up = Except.ok v) ∧
        (∃ v, optimizeFitnessRoute a up = Except.ok v)) ∧
      planRoute a "Generate waypoints for a scenic nature trip" =
        Except.ok (some mockPlanScenic) ∧
      optimizeFitnessRoute a "Current route metrics and goals" =
        Except.ok (some mockFitnessOpt) := by
  refine ⟨⟨pyOrOpt (pyOrOpt nk ek) ek, "https://api.nvcf.nvidia.com/v1",
    true⟩, ?_, ?_, rfl, fun modelId msgs => rfl,
    fun up => ⟨rfl, rfl⟩, ?_, ?_, ?_⟩
  · rw [fitnessNvidiaAgent, NVIDIAAgentInit]
    simp
  · rw [fallbackNvidiaAgent, NVIDIAAgentInit]
    simp
  · intro up
    constructor
    · rcases hr : getMockResponse [("system", planSystemPrompt),
        ("user", up)] with _ | r
      · exact ⟨none, by simp [planRoute, makeRequest, hr]⟩
      · exact ⟨jsonArraySlice r, by simp [planRoute, makeRequest, hr]⟩
    · rcases hr : getMockResponse [("system", fitnessOptSystemPrompt),
        ("user", up)] with _ | r
      · exact ⟨none, by simp [optimizeFitnessRoute, makeRequest, hr]⟩
      · exact ⟨bracketMatch r, by
          simp [optimizeFitnessRoute, makeRequest, hr]⟩
  · rw [show planRoute ⟨pyOrOpt (pyOrOpt nk ek) ek,
      "https://api.nvcf.nvidia.com/v1", true⟩
      "Generate waypoints for a scenic nature trip" =
      planRoute ⟨none, "https://api.nvcf.nvidia.com/v1", true⟩
      "Generate waypoints for a scenic nature trip" from rfl]
    rfl
  · rw [show optimizeFitnessRoute ⟨pyOrOpt (pyOrOpt nk ek) ek,
      "https://api.nvcf.nvidia.com/v1", true⟩
      "Current route metrics and goals" =
      optimizeFitnessRoute ⟨none, "https://api.nvcf.nvidia.com/v1", true⟩
      "Current route metrics and goals" from rfl]
    rfl
